import Mathlib

/-!
# Fitness monitor: step detection, debouncing, goal tracking and UI state

A shallow embedding of the integer pipeline of the fitness monitor
(`accelerometer.c`, `potentiometer.c`, `ui.c`, `input.c`, `main.c`) together with
theorems about it.

Conventions of the embedding.

* C integers are mathematical integers (`Int`, or `Nat` for unsigned objects) and
  every conversion to a narrower type is written out (`toInt16`, `toInt32`,
  `toUInt16`).  The target is a 32-bit ARM, so `int` is 32 bits wide and every
  `int16_t`/`uint16_t`/`uint8_t` operand is promoted to `int` before arithmetic.
* `/` on C `int`s truncates toward zero: `Int.tdiv`.
* File-scope statics become fields of a record which every operation takes and
  returns.
* Calls on the OLED are recorded in a trace (`DisplayCall`).
-/

namespace FitnessMonitor

/-! ## Machine integers -/

/-- Conversion of an integer value to `int16_t` (wraps modulo 2^16). -/
def toInt16 (v : Int) : Int := (v + 32768) % 65536 - 32768

/-- Conversion of an integer value to `int32_t` / `int` (wraps modulo 2^32). -/
def toInt32 (v : Int) : Int := (v + 2147483648) % 4294967296 - 2147483648

/-- Conversion of an integer value to `uint16_t`. -/
def toUInt16 (v : Int) : Nat := (v % 65536).toNat

/-- Conversion of an integer value to `uint32_t`. -/
def toUInt32 (v : Int) : Nat := (v % 4294967296).toNat

/-! ## Circular buffer (`circBufT.h`) -/

/-- Source: `#define BUF_SIZE 12` (accelerometer.c, potentiometer.c). -/
def BUF_SIZE : Nat := 12

/-- Modelled from the spec: the circular buffer module `circBufT.h` that
`accelerometer.c` and `potentiometer.c` include is not among the sources.  The spec
describes it as a fixed-capacity ring of `N` integers with a write cursor taken
modulo `N` that overwrites the oldest slot; the read cursor is the one
`readCircBuf` advances. -/
structure circBuf_t where
  size : Nat
  windex : Nat
  rindex : Nat
  data : List Int
deriving DecidableEq, Repr

/-- Modelled from the spec: `initCircBuf` is not among the sources.  A buffer of
`size` slots, both cursors at the first slot. -/
def initCircBuf (size : Nat) : circBuf_t :=
  { size := size, windex := 0, rindex := 0, data := List.replicate size 0 }

/-- Modelled from the spec: `writeCircBuf` is not among the sources.  "Overwrites
the slot at the current cursor, advances the cursor modulo N." -/
def writeCircBuf (buffer : circBuf_t) (entry : Int) : circBuf_t :=
  { buffer with
    data := buffer.data.set buffer.windex entry
    windex := if buffer.windex + 1 ≥ buffer.size then 0 else buffer.windex + 1 }

/-- Modelled from the spec: `readCircBuf` is not among the sources.  Returns the
slot at the read cursor and advances that cursor modulo N. -/
def readCircBuf (buffer : circBuf_t) : Int × circBuf_t :=
  (buffer.data.getD buffer.rindex 0,
   { buffer with
     rindex := if buffer.rindex + 1 ≥ buffer.size then 0 else buffer.rindex + 1 })

/-- A buffer as the program keeps it: `BUF_SIZE` slots, cursors inside. -/
def circBuf_t.WF (b : circBuf_t) : Prop :=
  b.size = BUF_SIZE ∧ b.data.length = BUF_SIZE ∧ b.windex < BUF_SIZE ∧ b.rindex < BUF_SIZE

instance (b : circBuf_t) : Decidable b.WF := by
  unfold circBuf_t.WF; infer_instance

/-! ## accelerometer.c -/

/-- The summation loop of `acc_average_buffer`:
`for (i = 0; i < BUF_SIZE; i++) sum = sum + readCircBuf(&buffer);`
with `n` iterations left; `sum` is an `int32_t`. -/
def acc_sum_loop : Nat → Int → circBuf_t → Int
  | 0, sum, _ => sum
  | n + 1, sum, buffer =>
    let r := readCircBuf buffer
    acc_sum_loop n (toInt32 (sum + r.1)) r.2

/-- Source: `static int16_t acc_average_buffer(circBuf_t buffer)`: the buffer is passed
by value, so the read cursor of the static buffer is not advanced.
`return ((2 * sum + BUF_SIZE) / 2 / BUF_SIZE);` in `int` arithmetic, converted to
the `int16_t` return type. -/
def acc_average_buffer (buffer : circBuf_t) : Int :=
  let sum := acc_sum_loop BUF_SIZE 0 buffer
  toInt16 (Int.tdiv (Int.tdiv (toInt32 (toInt32 (2 * sum) + BUF_SIZE)) 2) BUF_SIZE)

/-- The type `vector3_t` (accelerometer.h): three `int16_t` components. -/
structure vector3_t where
  x : Int
  y : Int
  z : Int
deriving DecidableEq, Repr

/-! ## ui.h -/

/-- The type `ui_state` (ui.h).  The code does arithmetic on it
(`(state + 1) % 3`, `state - 1 >= 0`), so a value of the type is kept as the
integer that represents it.  The type that underlies an enumeration is the choice
of the compiler; it is taken to be `int`, or a type that promotes to `int`, which
makes `state - 1 >= 0` the signed comparison its author wrote. -/
abbrev ui_state := Int

/-- Enumerator 0 of `typedef enum { STEPS_COUNTED, SET_GOAL, DISTANCE_TRAVELED } ui_state;`. -/
def STEPS_COUNTED : ui_state := 0

/-- Enumerator 1 of `ui_state`. -/
def SET_GOAL : ui_state := 1

/-- Enumerator 2 of `ui_state`. -/
def DISTANCE_TRAVELED : ui_state := 2

/-- Source: `typedef enum { KMS, MILES } distance_units;` -/
inductive distance_units where
  | KMS
  | MILES
deriving DecidableEq, Repr

/-- Source: `typedef enum { STEPS, GOAL_PERCENTAGE } step_units;` -/
inductive step_units where
  | STEPS
  | GOAL_PERCENTAGE
deriving DecidableEq, Repr

/-! ## Display and other peripheral calls -/

/-- A call that reaches the display (display.h, `OLEDStringDraw`) or another
peripheral, with its arguments.  The text formatting and the pixels behind these
calls are outside the embedding. -/
inductive DisplayCall where
  | initDisplay
  | OLEDStringDraw (text : String) (col : Nat) (row : Nat)
  | display_val (label : String) (value : Nat) (row : Nat)
  | display_steps (value : Nat) (row : Nat) (units : String)
  | display_val_units (label : String) (value : Nat) (row : Nat) (units : String)
  /-- Source: `display_val_units("", distance_traveled / 1.609, 2, "miles")`: the operand of
  the floating-point division is recorded, the quotient is not computed. -/
  | display_val_units_miles (distance : Nat) (row : Nat)
  | clear_display
  | display_goal_reached (steps : Nat) (distance : Nat) (goal : Nat)
  | SysCtlDelay
  | ADCProcessorTrigger
deriving DecidableEq, Repr

/-! ## The statics of the program -/

/-- The file-scope statics of `accelerometer.c`, `potentiometer.c`, `ui.c` and
`input.c`, and the trace of display calls. -/
structure Device where
  /-- Source: `static circBuf_t x_buffer;` (accelerometer.c) -/
  x_buffer : circBuf_t
  /-- Source: `static circBuf_t y_buffer;` -/
  y_buffer : circBuf_t
  /-- Source: `static circBuf_t z_buffer;` -/
  z_buffer : circBuf_t
  /-- Source: `static circBuf_t mag_buffer;` -/
  mag_buffer : circBuf_t
  /-- Source: `static circBuf_t adc_buffer;` (potentiometer.c) -/
  adc_buffer : circBuf_t
  /-- Source: `static bool test_mode;` (ui.c) -/
  test_mode : Bool
  /-- Source: `static ui_state state;` -/
  state : ui_state
  /-- Source: `static distance_units dist_state;` -/
  dist_state : distance_units
  /-- Source: `static step_units step_state;` -/
  step_state : step_units
  /-- Source: `static uint16_t steps_counted;` -/
  steps_counted : Nat
  /-- Source: `static uint16_t distance_traveled;` -/
  distance_traveled : Nat
  /-- Source: `static uint16_t step_goal;` -/
  step_goal : Nat
  /-- Source: `static bool goal_reached_flag;` -/
  goal_reached_flag : Bool
  /-- Source: `static uint16_t above_threshold_duration;` -/
  above_threshold_duration : Nat
  /-- Source: `static int32_t last_switch_state;` (input.c) -/
  last_switch_state : Int
  /-- Calls made on the display so far, oldest first. -/
  oled : List DisplayCall
deriving DecidableEq, Repr

/-- The statics before `main` runs: C zero-initialises them. -/
def power_on : Device :=
  { x_buffer := initCircBuf 0, y_buffer := initCircBuf 0, z_buffer := initCircBuf 0
    mag_buffer := initCircBuf 0, adc_buffer := initCircBuf 0
    test_mode := false, state := 0
    dist_state := distance_units.KMS, step_state := step_units.STEPS
    steps_counted := 0, distance_traveled := 0, step_goal := 0
    goal_reached_flag := false, above_threshold_duration := 0
    last_switch_state := 0, oled := [] }

/-- Records one call in the trace. -/
def Device.emit (d : Device) (c : DisplayCall) : Device :=
  { d with oled := d.oled ++ [c] }

/-! ## accelerometer.c, continued -/

/-- The pre-fill loop of `initAccl`, `n` iterations left:
`writeCircBuf(&mag_buffer, 768); writeCircBuf(&x_buffer, 256); ...` -/
def initAccl_fill : Nat → Device → Device
  | 0, d => d
  | n + 1, d =>
    initAccl_fill n
      { d with
        mag_buffer := writeCircBuf d.mag_buffer 768
        x_buffer := writeCircBuf d.x_buffer 256
        y_buffer := writeCircBuf d.y_buffer 256
        z_buffer := writeCircBuf d.z_buffer 256 }

/-- Source: `void initAccl(void)`: creates the four buffers and pre-fills them.  The I2C
set-up of the sensor that follows has no effect on the statics. -/
def initAccl (d : Device) : Device :=
  initAccl_fill BUF_SIZE
    { d with
      x_buffer := initCircBuf BUF_SIZE
      y_buffer := initCircBuf BUF_SIZE
      z_buffer := initCircBuf BUF_SIZE
      mag_buffer := initCircBuf BUF_SIZE }

/-- Source: `vector3_t get_accl_data(void)`.  The vector `raw_vector` is what
`get_raw_accl_data` read from the sensor over I2C. -/
def get_accl_data (raw_vector : vector3_t) (d : Device) : vector3_t × Device :=
  let d1 : Device :=
    { d with
      x_buffer := writeCircBuf d.x_buffer raw_vector.x
      y_buffer := writeCircBuf d.y_buffer raw_vector.y
      z_buffer := writeCircBuf d.z_buffer raw_vector.z }
  ({ x := acc_average_buffer d1.x_buffer
     y := acc_average_buffer d1.y_buffer
     z := acc_average_buffer d1.z_buffer }, d1)

/-- The `int` expression `y * y + z * z + x * x` of `detect_step`.  Overflow of
`int`, undefined in C, wraps here; it does not occur while the components stay
within the range of the sensor. -/
def sum_of_squares (acceleration : vector3_t) : Int :=
  toInt32 (toInt32 (toInt32 (acceleration.y * acceleration.y)
    + toInt32 (acceleration.z * acceleration.z))
    + toInt32 (acceleration.x * acceleration.x))

/-- Binary search for the integer square root of `n`: `k` bits are still to be
decided below the partial root `r`. -/
def isqrt_bits : Nat → Nat → Nat → Nat
  | 0, _, r => r
  | k + 1, n, r =>
    if (r + 2 ^ k) * (r + 2 ^ k) ≤ n then isqrt_bits k n (r + 2 ^ k) else isqrt_bits k n r

/-- The value of `sqrt` (math.h) on an `int` argument once it is converted back to
an integer type: the double-precision square root is exact enough that truncating
it gives the integer square root.  Computed bit by bit, for arguments below 2^32;
`isqrt_eq_sqrt` identifies it with `Nat.sqrt`. -/
def isqrt (n : Nat) : Nat := isqrt_bits 16 n 0

/-- Source: `int16_t mag_acc = sqrt(...)`: the square root of the `int` sum of squares,
converted to `int16_t`. -/
def mag_acc (acceleration : vector3_t) : Int :=
  toInt16 (isqrt (sum_of_squares acceleration).toNat)

/-- Source: `bool detect_step(vector3_t acceleration)`. -/
def detect_step (acceleration : vector3_t) (d : Device) : Bool × Device :=
  let mag := mag_acc acceleration
  let mag_acc_final := toInt16 (mag - acc_average_buffer d.mag_buffer)
  let d1 : Device := { d with mag_buffer := writeCircBuf d.mag_buffer mag }
  (decide (mag_acc_final > 21), d1)

/-! ## potentiometer.c -/

/-- The summation loop of `get_potentiometer_data`, `n` iterations left; `sum` is
a `uint32_t` and the reads go through the static buffer itself. -/
def adc_sum_loop : Nat → Nat → circBuf_t → Nat × circBuf_t
  | 0, sum, buffer => (sum, buffer)
  | n + 1, sum, buffer =>
    let r := readCircBuf buffer
    adc_sum_loop n (toUInt32 (sum + r.1)) r.2

/-- Source: `uint16_t get_potentiometer_data(void)`:
`return (((245 * 2 * sum + BUF_SIZE) / 2 / 100 / BUF_SIZE) / 100) * 100;`
in `uint32_t` arithmetic, converted to `uint16_t`. -/
def get_potentiometer_data (d : Device) : Nat × Device :=
  let r := adc_sum_loop BUF_SIZE 0 d.adc_buffer
  let sum := r.1
  let scaled := toUInt32 (toUInt32 (245 * 2 * sum) + BUF_SIZE) / 2 / 100 / BUF_SIZE
  (toUInt16 (toUInt32 (scaled / 100 * 100)), { d with adc_buffer := r.2 })

/-- Source: `void ADCIntHandler(void)`: `ulValue` is the sample the ADC delivered. -/
def ADCIntHandler (ulValue : Nat) (d : Device) : Device :=
  { d with adc_buffer := writeCircBuf d.adc_buffer ulValue }

/-- Source: `void init_potentiometer(void)`, the part that touches the statics. -/
def init_potentiometer (d : Device) : Device :=
  { d with adc_buffer := initCircBuf BUF_SIZE }

/-! ## ui.c -/

/-- Source: `static void load_state(ui_state state)`.  The parameter shadows the static,
so the assignments `state = ...` inside change nothing outside. -/
def load_state (state : ui_state) (d : Device) : Device :=
  if state = STEPS_COUNTED then
    d.emit (.OLEDStringDraw "Steps Counted" 0 0)
  else if state = DISTANCE_TRAVELED then
    d.emit (.OLEDStringDraw "Dist. Traveled" 0 0)
  else if state = SET_GOAL then
    (d.emit (.OLEDStringDraw "Set Step Goal" 0 0)).emit (.display_val "Current" d.step_goal 3)
  else d

/-- Source: `void init_ui(void)`. -/
def init_ui (d : Device) : Device :=
  let d := d.emit .initDisplay
  let d := { d with test_mode := false }
  let d := d.emit (.OLEDStringDraw "Steps Counted" 0 0)
  { d with
    state := STEPS_COUNTED
    dist_state := distance_units.KMS
    step_state := step_units.STEPS
    step_goal := 1000
    goal_reached_flag := false }

/-- Source: `void toggle_test_mode(void)`. -/
def toggle_test_mode (d : Device) : Device :=
  if !d.test_mode then
    let d := { d with test_mode := true }
    (d.emit .clear_display).emit (.OLEDStringDraw "TEST MODE" 0 0)
  else
    let d := { d with test_mode := false }
    let d := d.emit .clear_display
    load_state d.state d

/-- Source: `void next_ui_state(void)`: `state = (ui_state) ((state + 1) % 3);` -/
def next_ui_state (d : Device) : Device :=
  let d := d.emit .clear_display
  let d := { d with state := Int.tmod (toInt32 (d.state + 1)) 3 }
  load_state d.state d

/-- Source: `void prev_ui_state(void)`: `state = (ui_state) (state - 1 >= 0 ? state - 1 : 2);` -/
def prev_ui_state (d : Device) : Device :=
  let d := d.emit .clear_display
  let d := { d with
    state := if toInt32 (d.state - 1) ≥ 0 then toInt32 (d.state - 1) else 2 }
  load_state d.state d

/-- Source: `void test_increment(void)`. -/
def test_increment (d : Device) : Device :=
  let d : Device :=
    if (d.steps_counted : Int) + 100 > 10000 then { d with steps_counted := 10000 }
    else { d with steps_counted := toUInt16 ((d.steps_counted : Int) + 100) }
  if (d.distance_traveled : Int) + 90 > 9000 then { d with distance_traveled := 9000 }
  else { d with distance_traveled := toUInt16 ((d.distance_traveled : Int) + 90) }

/-- Source: `void test_decrement(void)`.  The operands are promoted to `int`, so
`steps_counted - 500 < 0` is a signed comparison. -/
def test_decrement (d : Device) : Device :=
  let d : Device :=
    if (d.steps_counted : Int) - 500 < 0 then { d with steps_counted := 0 }
    else { d with steps_counted := toUInt16 ((d.steps_counted : Int) - 500) }
  let d : Device :=
    if (d.distance_traveled : Int) - 450 < 0 then { d with distance_traveled := 0 }
    else { d with distance_traveled := toUInt16 ((d.distance_traveled : Int) - 450) }
  if d.steps_counted < d.step_goal then { d with goal_reached_flag := false } else d

/-- Source: `void change_step_units(void)`. -/
def change_step_units (d : Device) : Device :=
  if d.state = DISTANCE_TRAVELED then
    match d.dist_state with
    | .KMS => { d with dist_state := .MILES }
    | .MILES => { d with dist_state := .KMS }
  else if d.state = STEPS_COUNTED then
    match d.step_state with
    | .STEPS => { d with step_state := .GOAL_PERCENTAGE }
    | .GOAL_PERCENTAGE => { d with step_state := .STEPS }
  else d

/-- Source: `void set_goal_potentiometer(void)`. -/
def set_goal_potentiometer (d : Device) : Device :=
  let r := get_potentiometer_data d
  let new_goal := r.1
  let d := r.2
  let d := { d with step_goal := new_goal, state := STEPS_COUNTED }
  let d := d.emit (.OLEDStringDraw "                " 0 4)
  let d := d.emit (.OLEDStringDraw "Steps Counted" 0 0)
  { d with goal_reached_flag := false }

/-- Source: `void reset_distance(void)`. -/
def reset_distance (d : Device) : Device :=
  { d with distance_traveled := 0, steps_counted := 0, goal_reached_flag := false }

/-- Source: `void handle_test_mode_display()`. -/
def handle_test_mode_display (d : Device) : Device :=
  (d.emit (.display_val "Steps" d.steps_counted 2)).emit
    (.display_val_units "Dist: " d.distance_traveled 3 "km")

/-- Source: `void handle_normal_mode_display(void)`.  The result is `none` when the
function divides by zero (`steps_counted * 100 / step_goal` with `step_goal == 0`),
which C leaves undefined. -/
def handle_normal_mode_display (d : Device) : Option Device :=
  if d.state = STEPS_COUNTED then
    if d.step_state = step_units.STEPS then
      some (d.emit (.display_steps d.steps_counted 2 "steps"))
    else if d.step_goal = 0 then none
    else
      let goal_percent := toUInt16 (Int.tdiv (toInt32 ((d.steps_counted : Int) * 100)) d.step_goal)
      some (d.emit (.display_val "Goal %" goal_percent 2))
  else if d.state = DISTANCE_TRAVELED then
    if d.dist_state = distance_units.KMS then
      some (d.emit (.display_val_units "" d.distance_traveled 2 "km"))
    else
      some (d.emit (.display_val_units_miles d.distance_traveled 2))
  else if d.state = SET_GOAL then
    let r := get_potentiometer_data d
    some (r.2.emit (.display_val "New Goal" r.1 2))
  else some d

/-- Source: `void display_ui(void)`. -/
def display_ui (d : Device) : Option Device :=
  if d.test_mode then some (handle_test_mode_display d)
  else handle_normal_mode_display d

/-- Source: `static uint16_t convert_to_dist(uint16_t steps)`: `(steps * 9) / 10` in `int`
arithmetic, converted to `uint16_t`. -/
def convert_to_dist (steps : Nat) : Nat :=
  toUInt16 (Int.tdiv (toInt32 ((steps : Int) * 9)) 10)

/-- Source: `void ui_task(void)`. -/
def ui_task (d : Device) : Device :=
  if d.state = STEPS_COUNTED then d
  else if d.state = DISTANCE_TRAVELED then
    { d with distance_traveled := convert_to_dist d.steps_counted }
  else if d.state = SET_GOAL then d.emit .ADCProcessorTrigger
  else d

/-- Source: `void check_step_goal(void)`. -/
def check_step_goal (d : Device) : Device :=
  if d.goal_reached_flag = false ∧ d.steps_counted ≥ d.step_goal then
    let d := d.emit (.display_goal_reached d.steps_counted d.distance_traveled d.step_goal)
    let d := d.emit .SysCtlDelay
    let d := { d with goal_reached_flag := true }
    let d := d.emit .clear_display
    if d.test_mode then d.emit (.OLEDStringDraw "TEST MODE" 0 0)
    else load_state d.state d
  else d

/-- The body of `handle_step_event` after
`bool step_detected = detect_step(acceleration_data);` (ui.c lines 290-297). -/
def register_step_event (step_detected : Bool) (min_step_duration : Nat) (d : Device) :
    Device :=
  if step_detected then
    { d with above_threshold_duration := (d.above_threshold_duration + 1) % 65536 }
  else
    let d : Device :=
      if d.above_threshold_duration ≥ min_step_duration then
        { d with steps_counted := (d.steps_counted + 1) % 65536 }
      else d
    { d with above_threshold_duration := 0 }

/-- Source: `void handle_step_event(uint8_t min_step_duration)`; `raw_vector` is the
sample the sensor delivers to `get_accl_data`. -/
def handle_step_event (raw_vector : vector3_t) (min_step_duration : Nat) (d : Device) :
    Device :=
  let r := get_accl_data raw_vector d
  let acceleration_data := r.1
  let s := detect_step acceleration_data r.2
  let step_detected := s.1
  register_step_event step_detected min_step_duration s.2

/-! ## input.c -/

/-- Modelled from the spec: `buttons4.h` is not among the sources.  A button poll
reports one of no-change, pressed, released. -/
inductive butState where
  | RELEASED
  | PUSHED
  | NO_CHANGE
deriving DecidableEq, Repr

/-- What one call of `buttons_handler` obtains from the hardware: the result of
`checkButton` for each button, the result of `is_long_press(DOWN)` should it be
called, and the level `GPIOPinRead` returns for switch 1. -/
structure Inputs where
  up : butState
  down : butState
  left : butState
  right : butState
  long_press : Bool
  switch_level : Int
deriving DecidableEq, Repr

/-- Source: `static void handle_button_up(void)`. -/
def handle_button_up (i : Inputs) (d : Device) : Device :=
  match i.up with
  | .PUSHED => change_step_units d
  | _ => d

/-- Source: `static void handle_button_down(void)`. -/
def handle_button_down (i : Inputs) (d : Device) : Device :=
  match i.down with
  | .PUSHED =>
    if d.state = SET_GOAL then set_goal_potentiometer d
    else if d.state ≠ SET_GOAL ∧ i.long_press then reset_distance d
    else d
  | _ => d

/-- Source: `static void handle_button_left(void)`. -/
def handle_button_left (i : Inputs) (d : Device) : Device :=
  match i.left with
  | .PUSHED => prev_ui_state d
  | _ => d

/-- Source: `static void handle_button_right(void)`. -/
def handle_button_right (i : Inputs) (d : Device) : Device :=
  match i.right with
  | .PUSHED => next_ui_state d
  | _ => d

/-- Source: `static void handle_switch_1(void)`. -/
def handle_switch_1 (i : Inputs) (d : Device) : Device :=
  if i.switch_level ≠ d.last_switch_state then
    toggle_test_mode { d with last_switch_state := i.switch_level }
  else d

/-- Source: `static void handle_button_up_test(void)`. -/
def handle_button_up_test (i : Inputs) (d : Device) : Device :=
  match i.up with
  | .PUSHED => test_increment d
  | _ => d

/-- Source: `static void handle_button_down_test(void)`. -/
def handle_button_down_test (i : Inputs) (d : Device) : Device :=
  match i.down with
  | .PUSHED => test_decrement d
  | _ => d

/-- Source: `void buttons_handler(void)`. -/
def buttons_handler (i : Inputs) (d : Device) : Device :=
  let d :=
    if d.test_mode then
      handle_button_down_test i (handle_button_up_test i d)
    else
      handle_button_left i (handle_button_right i (handle_button_down i (handle_button_up i d)))
  handle_switch_1 i d

/-- Source: `void init_inputs(void)`, the part that touches the statics. -/
def init_inputs (d : Device) : Device :=
  { d with last_switch_state := 0 }

/-! ## main.c -/

/-- The statics when `main` enters its loop: `init_potentiometer(); initDisplay();
initAccl(); init_inputs(); init_ui();` from the zero-initialised statics. -/
def boot : Device :=
  init_ui (init_inputs (initAccl ((init_potentiometer power_on).emit .initDisplay)))

/-! ## Auxiliary definitions used in statements and proofs -/

/-- The values that `n` successive calls of `readCircBuf` return, added up without
any truncation. -/
def read_total : Nat → circBuf_t → Int
  | 0, _ => 0
  | n + 1, buffer => (readCircBuf buffer).1 + read_total n (readCircBuf buffer).2

/-- Every slot holds a value of type `int16_t`. -/
def Int16Entries (b : circBuf_t) : Prop := ∀ e ∈ b.data, -32768 ≤ e ∧ e ≤ 32767

instance (b : circBuf_t) : Decidable (Int16Entries b) := by
  unfold Int16Entries; infer_instance

/-- The value of `step_detected` in the call of `handle_step_event` that receives
the sample `raw_vector` in the state `d`. -/
def step_detected (raw_vector : vector3_t) (d : Device) : Bool :=
  (detect_step (get_accl_data raw_vector d).1 (get_accl_data raw_vector d).2).1

/-- Successive calls `handle_step_event(m)`, one for each sample of the list. -/
def step_events (m : Nat) (raws : List vector3_t) (d : Device) : Device :=
  raws.foldl (fun d raw_vector => handle_step_event raw_vector m d) d

/-- The values of `step_detected` in those successive calls: `true` is a sample
that crossed the threshold. -/
def crossings (m : Nat) : List vector3_t → Device → List Bool
  | [], _ => []
  | raw_vector :: rest, d =>
    step_detected raw_vector d :: crossings m rest (handle_step_event raw_vector m d)

/-- Length of the run of crossed samples that ends a list of samples. -/
def trailing_run (cs : List Bool) : Nat := (cs.reverse.takeWhile id).length

/-- Number of samples of `cs` at which a hold of at least `m` ends, the hold
counter standing at `a` before the first sample. -/
def holds_ended (m : Nat) : List Bool → Nat → Nat
  | [], _ => 0
  | true :: cs, a => holds_ended m cs (a + 1)
  | false :: cs, a => (if a ≥ m then 1 else 0) + holds_ended m cs 0

/-- A `uint16_t` counter after `k` increments. -/
def bump (k : Nat) (steps : Nat) : Nat :=
  match k with
  | 0 => steps
  | k + 1 => (bump k steps + 1) % 65536

/-- Recognises the call `display_goal_reached(...)`, by which `check_step_goal`
notifies the user. -/
def is_goal_notification : DisplayCall → Bool
  | .display_goal_reached _ _ _ => true
  | _ => false

/-- Number of goal notifications shown so far. -/
def goal_notifications (d : Device) : Nat :=
  (d.oled.filter is_goal_notification).length

/-- The operations of the UI module that change its statics, with the inputs they
take from outside. -/
inductive UiOp where
  | handle_step_event (raw_vector : vector3_t) (min_step_duration : Nat)
  | test_increment
  | test_decrement
  | set_goal_potentiometer
  | reset_distance
  | check_step_goal
  | next_ui_state
  | prev_ui_state
  | change_step_units
  | toggle_test_mode
deriving DecidableEq, Repr

/-- Runs one operation of the UI module. -/
def UiOp.run : UiOp → Device → Device
  | .handle_step_event raw_vector min_step_duration, d =>
    FitnessMonitor.handle_step_event raw_vector min_step_duration d
  | .test_increment, d => FitnessMonitor.test_increment d
  | .test_decrement, d => FitnessMonitor.test_decrement d
  | .set_goal_potentiometer, d => FitnessMonitor.set_goal_potentiometer d
  | .reset_distance, d => FitnessMonitor.reset_distance d
  | .check_step_goal, d => FitnessMonitor.check_step_goal d
  | .next_ui_state, d => FitnessMonitor.next_ui_state d
  | .prev_ui_state, d => FitnessMonitor.prev_ui_state d
  | .change_step_units, d => FitnessMonitor.change_step_units d
  | .toggle_test_mode, d => FitnessMonitor.toggle_test_mode d

/-- A poll in which no button changed and the switch is down. -/
def no_input : Inputs :=
  { up := .NO_CHANGE, down := .NO_CHANGE, left := .NO_CHANGE, right := .NO_CHANGE
    long_press := false, switch_level := 0 }

/-- A state in use: 1200 steps counted with the default goal 1000 reached, and the
potentiometer buffer holding the reading 410 twelve times (which scales to 1000). -/
def walked_1200 : Device :=
  { boot with
    steps_counted := 1200
    goal_reached_flag := true
    adc_buffer := { boot.adc_buffer with data := List.replicate 12 410 } }

/-- A state in use: the goal has been set to 0 and reported as reached. -/
def goal_zero_reached : Device :=
  { boot with step_goal := 0, goal_reached_flag := true }

/-! ## main.c: tick counters and the main loop -/

/-- The file-scope statics of `main.c`. -/
structure main_statics where
  /-- Source: `static uint32_t sample_count;` -/
  sample_count : Nat
  /-- Source: `static uint8_t display_tick;` -/
  display_tick : Nat
  /-- Source: `static uint16_t step_check_tick;` -/
  step_check_tick : Nat
  /-- Source: `static uint8_t step_count_tick;` -/
  step_count_tick : Nat
  /-- Source: `static uint8_t button_tick;` -/
  button_tick : Nat
  /-- Source: `static uint8_t ui_task_tick;` -/
  ui_task_tick : Nat
deriving DecidableEq, Repr

/-- The statics of `main.c` before the first tick: C zero-initialises them. -/
def main_power_on : main_statics :=
  { sample_count := 0, display_tick := 0, step_check_tick := 0, step_count_tick := 0
    button_tick := 0, ui_task_tick := 0 }

/-- Source: `static void sys_tick_int_handler(void)`.  Every counter is incremented
in its own width; `sample_count` is reset when `1 > 0xFFFFFFFF - sample_count`. -/
def sys_tick_int_handler (t : main_statics) : main_statics :=
  let sample_count := (t.sample_count + 1) % 4294967296
  let sample_count := if 1 > 4294967295 - sample_count then 0 else sample_count
  { sample_count := sample_count
    step_check_tick := (t.step_check_tick + 1) % 65536
    display_tick := (t.display_tick + 1) % 256
    step_count_tick := (t.step_count_tick + 1) % 256
    button_tick := (t.button_tick + 1) % 256
    ui_task_tick := (t.ui_task_tick + 1) % 256 }

/-- The tasks the main loop dispatches. -/
inductive Task where
  | buttons_handler
  | ui_task
  | display_ui
  | check_step_goal
  | handle_step_event
deriving DecidableEq, Repr

/-- The state the main loop works on: the statics of `main.c`, the statics of the
other modules, and the tasks dispatched so far in the current pass. -/
structure LoopState where
  ticks : main_statics
  device : Device
  dispatched : List Task
deriving DecidableEq, Repr

/-- One pass through the body of `while (1)` in `main`.  The inputs are what the
hardware would deliver to `buttons_handler` and to `handle_step_event` if they are
called in this pass.  The result is `none` when `display_ui` divides by zero. -/
def main_loop_pass (i : Inputs) (raw_vector : vector3_t) (t : main_statics) (d : Device) :
    Option LoopState :=
  let s : LoopState := { ticks := t, device := d, dispatched := [] }
  let s : LoopState :=
    if s.ticks.button_tick > 24 then
      { ticks := { s.ticks with button_tick := 0 }
        device := buttons_handler i s.device
        dispatched := s.dispatched ++ [Task.buttons_handler] }
    else s
  let s : LoopState :=
    if s.ticks.ui_task_tick > 30 then
      { ticks := { s.ticks with ui_task_tick := 0 }
        device := ui_task s.device
        dispatched := s.dispatched ++ [Task.ui_task] }
    else s
  let s : Option LoopState :=
    if s.ticks.display_tick ≥ 100 then
      match display_ui s.device with
      | none => none
      | some d1 =>
        some { ticks := { s.ticks with display_tick := 0 }
               device := d1
               dispatched := s.dispatched ++ [Task.display_ui] }
    else some s
  match s with
  | none => none
  | some s =>
    let s : LoopState :=
      if s.ticks.step_check_tick ≥ 300 then
        { ticks := { s.ticks with step_check_tick := 0 }
          device := check_step_goal s.device
          dispatched := s.dispatched ++ [Task.check_step_goal] }
      else s
    let s : LoopState :=
      if s.ticks.step_count_tick ≥ 24 ∧ (!s.device.test_mode) = true then
        { ticks := { s.ticks with step_count_tick := 0 }
          device := handle_step_event raw_vector 5 s.device
          dispatched := s.dispatched ++ [Task.handle_step_event] }
      else s
    some s

/-- Rounds of one tick followed by one pass of the main loop, `n` of them, with
the same inputs in every round.  The result lists the tasks dispatched in each
round, first round first. -/
def main_rounds (i : Inputs) (raw_vector : vector3_t) :
    Nat → main_statics → Device → Option (main_statics × Device × List (List Task))
  | 0, t, d => some (t, d, [])
  | n + 1, t, d =>
    match main_loop_pass i raw_vector (sys_tick_int_handler t) d with
    | none => none
    | some s =>
      match main_rounds i raw_vector n s.ticks s.device with
      | none => none
      | some r => some (r.1, r.2.1, s.dispatched :: r.2.2)

/-- The numbers of the rounds, counted from 1, in which `task` was dispatched. -/
def dispatch_rounds (task : Task) (log : List (List Task)) : List Nat :=
  ((List.range log.length).filter (fun k => decide (task ∈ log.getD k []))).map (· + 1)

/-- The sample a sensor at rest delivers: gravity along the z axis. -/
def at_rest : vector3_t := { x := 0, y := 0, z := 256 }

/-- The magnitude `detect_step` would compute from the axis buffers as they
stand: `mag_acc` of their rounded averages. -/
def resting_magnitude (d : Device) : Int :=
  mag_acc
    { x := acc_average_buffer d.x_buffer
      y := acc_average_buffer d.y_buffer
      z := acc_average_buffer d.z_buffer }

/-- The state of the buffers while the sensor keeps delivering the vector `v` after
start-up: every axis buffer holds values between the component of `v` and 256, and
no entry of the magnitude buffer is below the magnitude of the current averages. -/
def WarmUp (v : vector3_t) (d : Device) : Prop :=
  (d.x_buffer.WF ∧ d.y_buffer.WF ∧ d.z_buffer.WF ∧ d.mag_buffer.WF) ∧
  (∀ e ∈ d.x_buffer.data, v.x ≤ e ∧ e ≤ 256) ∧
  (∀ e ∈ d.y_buffer.data, v.y ≤ e ∧ e ≤ 256) ∧
  (∀ e ∈ d.z_buffer.data, v.z ≤ e ∧ e ≤ 256) ∧
  (∀ e ∈ d.mag_buffer.data, resting_magnitude d ≤ e ∧ e ≤ 32767)

/-! ## Lemmas on the buffer average -/

theorem readCircBuf_entry_bounds (b : circBuf_t) (he : Int16Entries b) :
    -32768 ≤ (readCircBuf b).1 ∧ (readCircBuf b).1 ≤ 32767 := by
  unfold readCircBuf
  simp only [List.getD_eq_getElem?_getD]
  rcases lt_or_le b.rindex b.data.length with h | h
  · rw [List.getElem?_eq_getElem h]
    exact he _ (List.getElem_mem h)
  · rw [List.getElem?_eq_none h]; simp

theorem acc_sum_loop_total (n : Nat) : ∀ (sum : Int) (b : circBuf_t), Int16Entries b →
    -2147483648 + 32768 * (n : Int) ≤ sum → sum ≤ 2147483647 - 32768 * (n : Int) →
    acc_sum_loop n sum b = sum + read_total n b := by
  induction n with
  | zero => intro sum b _ _ _; simp [acc_sum_loop, read_total]
  | succ k ih =>
    intro sum b he hlo hhi
    have h1 := readCircBuf_entry_bounds b he
    push_cast at hlo hhi
    have e : toInt32 (sum + (readCircBuf b).1) = sum + (readCircBuf b).1 := by
      unfold toInt32; omega
    simp only [acc_sum_loop, read_total, e]
    rw [ih _ _ (by simpa [readCircBuf, Int16Entries] using he) (by omega) (by omega)]
    ring

/-- Twelve reads of a well-formed buffer visit every slot once, wherever the read
cursor stands. -/
theorem read_total_full (b : circBuf_t) (h : b.WF) : read_total BUF_SIZE b = b.data.sum := by
  obtain ⟨hs, hl, _, hr⟩ := h
  obtain ⟨size, windex, rindex, data⟩ := b
  simp only [BUF_SIZE] at hs hl hr
  subst hs
  match data, hl with
  | [a0, a1, a2, a3, a4, a5, a6, a7, a8, a9, a10, a11], _ =>
    interval_cases rindex <;>
      simp [read_total, readCircBuf, BUF_SIZE] <;> ring

/-- On a well-formed buffer of `int16_t` values the loop computes the exact sum
of the twelve slots. -/
theorem acc_sum_loop_eq (b : circBuf_t) (h : b.WF) (he : Int16Entries b) :
    acc_sum_loop BUF_SIZE 0 b = b.data.sum := by
  rw [acc_sum_loop_total BUF_SIZE 0 b he (by simp [BUF_SIZE]) (by simp [BUF_SIZE]),
    read_total_full b h]
  ring

theorem sum_bounds_of_entries (l : List Int) (lo hi : Int)
    (h : ∀ e ∈ l, lo ≤ e ∧ e ≤ hi) :
    lo * (l.length : Int) ≤ l.sum ∧ l.sum ≤ hi * (l.length : Int) := by
  induction l with
  | nil => simp
  | cons a t ih =>
    have ha := h a (by simp)
    have ht := ih (fun e he => h e (by simp [he]))
    simp only [List.sum_cons, List.length_cons]
    push_cast
    constructor <;> nlinarith [ha.1, ha.2, ht.1, ht.2]

/-- Truncating division of `2 * S + 12` by 2 and then by 12 is truncating
division of `S + 6` by 12. -/
theorem tdiv_tdiv_eq (S : Int) :
    Int.tdiv (Int.tdiv (2 * S + 12) 2) 12 = Int.tdiv (S + 6) 12 := by
  have : 2 * S + 12 = (S + 6) * 2 := by ring
  rw [this, Int.mul_tdiv_cancel _ (by norm_num)]

/-- Closed form of `acc_average_buffer` on a well-formed buffer of `int16_t`
values with sum `S`: `(S + 6) / 12` truncated toward zero; no conversion wraps. -/
theorem acc_average_buffer_eq (b : circBuf_t) (h : b.WF) (he : Int16Entries b) :
    acc_average_buffer b = Int.tdiv (b.data.sum + 6) 12 := by
  have hsum := acc_sum_loop_eq b h he
  have hS := sum_bounds_of_entries b.data (-32768) 32767 he
  rw [h.2.1] at hS
  simp only [BUF_SIZE] at hS
  push_cast at hS
  unfold acc_average_buffer
  simp only [hsum]
  simp only [BUF_SIZE]
  generalize b.data.sum = S at hS ⊢
  have e1 : toInt32 (2 * S) = 2 * S := by unfold toInt32; omega
  have e2 : toInt32 (2 * S + ((12 : Nat) : Int)) = 2 * S + 12 := by
    unfold toInt32; push_cast; omega
  rw [e1, e2]
  push_cast
  rw [tdiv_tdiv_eq]
  have hq : -32768 ≤ Int.tdiv (S + 6) 12 ∧ Int.tdiv (S + 6) 12 ≤ 32767 := by
    rcases le_or_lt 0 (S + 6) with hp | hn
    · rw [Int.tdiv_eq_ediv hp (by norm_num)]; omega
    · have : Int.tdiv (S + 6) 12 = -(Int.tdiv (-(S + 6)) 12) := by
        rw [Int.neg_tdiv, neg_neg]
      rw [this, Int.tdiv_eq_ediv (by omega) (by norm_num)]; omega
  unfold toInt16
  omega

/-- Rounding law on the non-negative side: when the sum `S` of the twelve slots
is at least `-6`, `acc_average_buffer` is `floor((2 * S + 12) / 24)`, the integer
nearest to `S / 12` with ties upward. -/
theorem acc_average_buffer_round (b : circBuf_t) (h : b.WF) (he : Int16Entries b)
    (hs : -6 ≤ b.data.sum) :
    acc_average_buffer b = (2 * b.data.sum + 12) / 24 := by
  rw [acc_average_buffer_eq b h he, Int.tdiv_eq_ediv (by omega) (by norm_num)]
  omega

/-! ## C1: the rounding law of `acc_average_buffer` -/

/-- C1. The rounding law fails on negative sums: for the buffer that holds -1
twelve times (sum -12, average exactly -1) `acc_average_buffer` returns 0, whereas
`floor((2 * S + 12) / 24)` is -1.  The buffer holding 256 twelve times does yield
256. -/
theorem C1_acc_average_buffer_negative_sum :
    (List.replicate 12 (-1 : Int)).sum = -12 ∧
    acc_average_buffer
      { size := 12, windex := 0, rindex := 0, data := List.replicate 12 (-1) } = 0 ∧
    (2 * (List.replicate 12 (-1 : Int)).sum + 12) / 24 = -1 ∧
    acc_average_buffer
      { size := 12, windex := 0, rindex := 0, data := List.replicate 12 256 } = 256 := by
  decide

/-! ## C2: the debouncer of `handle_step_event` -/

theorem register_step_event_duration (c : Bool) (m : Nat) (d : Device) :
    (register_step_event c m d).above_threshold_duration =
      if c then (d.above_threshold_duration + 1) % 65536 else 0 := by
  unfold register_step_event
  cases c <;> simp

theorem register_step_event_steps (c : Bool) (m : Nat) (d : Device) :
    (register_step_event c m d).steps_counted =
      if c = false ∧ m ≤ d.above_threshold_duration then (d.steps_counted + 1) % 65536
      else d.steps_counted := by
  unfold register_step_event
  cases c
  · by_cases hm : m ≤ d.above_threshold_duration <;> simp [hm]
  · simp

theorem handle_step_event_eq (raw : vector3_t) (m : Nat) (d : Device) :
    handle_step_event raw m d =
      register_step_event (step_detected raw d) m
        (detect_step (get_accl_data raw d).1 (get_accl_data raw d).2).2 := rfl

theorem handle_step_event_duration (raw : vector3_t) (m : Nat) (d : Device) :
    (handle_step_event raw m d).above_threshold_duration =
      if step_detected raw d then (d.above_threshold_duration + 1) % 65536 else 0 := by
  rw [handle_step_event_eq, register_step_event_duration]
  rfl

theorem handle_step_event_steps (raw : vector3_t) (m : Nat) (d : Device) :
    (handle_step_event raw m d).steps_counted =
      if step_detected raw d = false ∧ m ≤ d.above_threshold_duration then
        (d.steps_counted + 1) % 65536
      else d.steps_counted := by
  rw [handle_step_event_eq, register_step_event_steps]
  rfl

theorem step_events_nil (m : Nat) (d : Device) : step_events m [] d = d := by
  unfold step_events
  rw [List.foldl_nil]

theorem step_events_cons (m : Nat) (r : vector3_t) (rest : List vector3_t) (d : Device) :
    step_events m (r :: rest) d = step_events m rest (handle_step_event r m d) := by
  unfold step_events
  rw [List.foldl_cons]

theorem step_events_append (m : Nat) (l1 l2 : List vector3_t) (d : Device) :
    step_events m (l1 ++ l2) d = step_events m l2 (step_events m l1 d) := by
  unfold step_events
  rw [List.foldl_append]

theorem crossings_cons (m : Nat) (r : vector3_t) (rest : List vector3_t) (d : Device) :
    crossings m (r :: rest) d
      = step_detected r d :: crossings m rest (handle_step_event r m d) := by
  rw [crossings]

theorem crossings_length (m : Nat) (raws : List vector3_t) :
    ∀ d : Device, (crossings m raws d).length = raws.length := by
  induction raws with
  | nil => intro d; rfl
  | cons r rest ih => intro d; rw [crossings_cons, List.length_cons, List.length_cons, ih]

theorem crossings_append (m : Nat) (l1 l2 : List vector3_t) :
    ∀ d : Device, crossings m (l1 ++ l2) d =
      crossings m l1 d ++ crossings m l2 (step_events m l1 d) := by
  induction l1 with
  | nil => intro d; rfl
  | cons r rest ih =>
    intro d
    rw [List.cons_append, crossings_cons, crossings_cons, step_events_cons, ih, List.cons_append]

theorem trailing_run_snoc (cs : List Bool) (c : Bool) :
    trailing_run (cs ++ [c]) = if c then trailing_run cs + 1 else 0 := by
  unfold trailing_run
  cases c <;> simp [List.takeWhile]

theorem trailing_run_le (cs : List Bool) : trailing_run cs ≤ cs.length := by
  unfold trailing_run
  have := (List.takeWhile_prefix (l := cs.reverse) id).length_le
  simpa using this

/-- The run that ends the list has length at least `m` exactly when the last `m`
samples exist and all crossed. -/
theorem le_trailing_run_iff (cs : List Bool) : ∀ m : Nat,
    m ≤ trailing_run cs ↔
      (m ≤ cs.length ∧ ∀ j, cs.length - m ≤ j → j < cs.length → cs.getD j false = true) := by
  induction cs using List.reverseRecOn with
  | nil =>
    intro m
    simp [trailing_run]
  | append_singleton cs c ih =>
    intro m
    rw [trailing_run_snoc]
    rcases Nat.eq_zero_or_pos m with hm | hm
    · subst hm
      simp only [Nat.zero_le, true_and, List.length_append, List.length_singleton, Nat.sub_zero]
      exact ⟨fun _ j h1 h2 => by omega, fun _ => trivial⟩
    · obtain ⟨k, rfl⟩ : ∃ k, m = k + 1 := ⟨m - 1, by omega⟩
      cases c with
      | false =>
        simp only [Bool.false_eq_true, if_false, List.length_append, List.length_singleton]
        constructor
        · intro h; omega
        · rintro ⟨_, h⟩
          have := h cs.length (by omega) (by omega)
          simp [List.getD_eq_getElem?_getD] at this
      | true =>
        simp only [if_true, List.length_append, List.length_singleton]
        rw [Nat.succ_le_succ_iff, ih k]
        constructor
        · rintro ⟨hk, h⟩
          refine ⟨by omega, fun j hj1 hj2 => ?_⟩
          rcases Nat.lt_or_ge j cs.length with hlt | hge
          · have := h j (by omega) hlt
            simpa [List.getD_eq_getElem?_getD, List.getElem?_append_left hlt] using this
          · have : j = cs.length := by omega
            subst this
            simp [List.getD_eq_getElem?_getD]
        · rintro ⟨hk, h⟩
          refine ⟨by omega, fun j hj1 hj2 => ?_⟩
          have := h j (by omega) (by omega)
          simpa [List.getD_eq_getElem?_getD, List.getElem?_append_left hj2] using this

/-- With the hold counter at 0 before the first sample and fewer than 65536
samples, the counter equals the length of the run of crossed samples seen last. -/
theorem duration_eq_trailing_run (m : Nat) (raws : List vector3_t) :
    ∀ d0 : Device, d0.above_threshold_duration = 0 → raws.length < 65536 →
      (step_events m raws d0).above_threshold_duration
        = trailing_run (crossings m raws d0) := by
  induction raws using List.reverseRecOn with
  | nil =>
    intro d0 h0 _
    rw [step_events_nil, h0]
    rfl
  | append_singleton l r ih =>
    intro d0 h0 hlen
    simp only [List.length_append, List.length_singleton] at hlen
    have ih1 := ih d0 h0 (by omega)
    have hle := trailing_run_le (crossings m l d0)
    rw [crossings_length] at hle
    rw [step_events_append, crossings_append, step_events_cons, step_events_nil,
      crossings_cons]
    rw [show crossings m [] (handle_step_event r m (step_events m l d0)) = [] from rfl,
      trailing_run_snoc, handle_step_event_duration, ih1]
    split
    · exact Nat.mod_eq_of_lt (by omega)
    · rfl

theorem step_events_take_succ (m : Nat) (raws : List vector3_t) (d0 : Device) (i : Nat)
    (hi : i < raws.length) :
    step_events m (raws.take (i + 1)) d0
      = handle_step_event raws[i] m (step_events m (raws.take i) d0) := by
  rw [List.take_succ, step_events_append, List.getElem?_eq_getElem hi, Option.toList_some,
    step_events_cons, step_events_nil]

theorem crossings_take (m : Nat) (raws : List vector3_t) (i : Nat) :
    ∀ d0 : Device, crossings m (raws.take i) d0 = (crossings m raws d0).take i := by
  induction raws generalizing i with
  | nil => intro d0; simp [crossings]
  | cons r rest ih =>
    intro d0
    cases i with
    | zero => simp [crossings]
    | succ k => rw [List.take_succ_cons, crossings_cons, crossings_cons, List.take_succ_cons, ih]

theorem crossings_getD (m : Nat) (raws : List vector3_t) (dflt : Bool) :
    ∀ (d0 : Device) (i : Nat) (hi : i < raws.length),
      (crossings m raws d0).getD i dflt
        = step_detected raws[i] (step_events m (raws.take i) d0) := by
  induction raws with
  | nil => intro d0 i hi; exact absurd hi (Nat.not_lt_zero _)
  | cons r rest ih =>
    intro d0 i hi
    rw [crossings_cons]
    cases i with
    | zero =>
      rw [List.take_zero, step_events_nil, List.getD_cons_zero, List.getElem_cons_zero]
    | succ k =>
      rw [List.take_succ_cons, step_events_cons, List.getD_cons_succ, List.getElem_cons_succ,
        ih _ k (Nat.lt_of_succ_lt_succ hi)]

theorem holds_ended_replicate (m k : Nat) : ∀ (rest : List Bool) (a : Nat),
    holds_ended m (List.replicate k true ++ rest) a = holds_ended m rest (a + k) := by
  induction k with
  | zero => intro rest a; simp
  | succ n ih =>
    intro rest a
    show holds_ended m (true :: (List.replicate n true ++ rest)) a = _
    rw [holds_ended, ih]
    congr 1
    omega

theorem bump_shift (k : Nat) : ∀ s : Nat, bump k ((s + 1) % 65536) = bump (k + 1) s := by
  induction k with
  | zero => intro s; rfl
  | succ n ih => intro s; rw [bump, ih]; rfl

/-- The step count after a run of samples is the count before it, incremented
once for every hold of at least `m` that ended. -/
theorem step_events_steps (m : Nat) (raws : List vector3_t) :
    ∀ d : Device, d.above_threshold_duration + raws.length < 65536 →
      (step_events m raws d).steps_counted
        = bump (holds_ended m (crossings m raws d) d.above_threshold_duration)
            d.steps_counted := by
  induction raws with
  | nil => intro d _; rfl
  | cons r rest ih =>
    intro d hlen
    simp only [List.length_cons] at hlen
    have hd := handle_step_event_duration r m d
    have hs := handle_step_event_steps r m d
    rw [step_events_cons, crossings_cons]
    cases hc : step_detected r d with
    | true =>
      simp only [hc, if_true] at hd
      simp only [hc, Bool.true_eq_false, false_and, if_false] at hs
      rw [Nat.mod_eq_of_lt (by omega)] at hd
      rw [ih _ (by omega), hd, hs, holds_ended]
    | false =>
      simp only [hc, Bool.false_eq_true, if_false] at hd
      simp only [hc, true_and] at hs
      rw [ih _ (by omega), hd, hs, holds_ended]
      by_cases hm : m ≤ d.above_threshold_duration
      · simp only [hm, if_true, ge_iff_le]
        rw [bump_shift, Nat.add_comm]
      · simp [hm]

/-- C2. Debounce law of `handle_step_event`.  Start with the hold counter at 0 and
feed fewer than 65536 samples.  The call that receives sample `i` increments
`steps_counted` (by one, as a `uint16_t`) when that sample did not cross and the
`m` samples before it all exist and crossed, and leaves `steps_counted` unchanged
otherwise.  Hence a run of exactly `m` crossed samples followed by one below
sample registers one step, a run of `m - 1` registers none, and two such runs
separated by one below sample register two. -/
theorem C2_handle_step_event_debounce (m : Nat) (raws : List vector3_t) (d0 : Device)
    (hlen : raws.length < 65536) (h0 : d0.above_threshold_duration = 0) :
    (∀ (i : Nat) (hi : i < raws.length),
      (((crossings m raws d0).getD i true = false ∧ m ≤ i ∧
          ∀ j, i - m ≤ j → j < i → (crossings m raws d0).getD j false = true) →
        (handle_step_event raws[i] m (step_events m (raws.take i) d0)).steps_counted
          = ((step_events m (raws.take i) d0).steps_counted + 1) % 65536) ∧
      (¬ ((crossings m raws d0).getD i true = false ∧ m ≤ i ∧
          ∀ j, i - m ≤ j → j < i → (crossings m raws d0).getD j false = true) →
        (handle_step_event raws[i] m (step_events m (raws.take i) d0)).steps_counted
          = (step_events m (raws.take i) d0).steps_counted)) ∧
    (crossings m raws d0 = List.replicate m true ++ [false] →
      (step_events m raws d0).steps_counted = (d0.steps_counted + 1) % 65536) ∧
    (0 < m → crossings m raws d0 = List.replicate (m - 1) true ++ [false] →
      (step_events m raws d0).steps_counted = d0.steps_counted) ∧
    (crossings m raws d0
        = (List.replicate m true ++ [false]) ++ (List.replicate m true ++ [false]) →
      (step_events m raws d0).steps_counted = (d0.steps_counted + 2) % 65536) := by
  have hsteps := step_events_steps m raws d0 (by omega)
  rw [h0] at hsteps
  refine ⟨fun i hi => ?_, fun hc => ?_, fun hm hc => ?_, fun hc => ?_⟩
  · have hpre : (raws.take i).length = i := by rw [List.length_take]; omega
    have hdur := duration_eq_trailing_run m (raws.take i) d0 h0 (by omega)
    have hiff := le_trailing_run_iff (crossings m (raws.take i) d0) m
    rw [crossings_length, hpre] at hiff
    have hget : ∀ j, j < i →
        (crossings m (raws.take i) d0).getD j false = (crossings m raws d0).getD j false := by
      intro j hj
      rw [crossings_take, List.getD_eq_getElem?_getD, List.getD_eq_getElem?_getD,
        List.getElem?_take_of_lt hj]
    have hcond : m ≤ (step_events m (raws.take i) d0).above_threshold_duration ↔
        (m ≤ i ∧ ∀ j, i - m ≤ j → j < i → (crossings m raws d0).getD j false = true) := by
      rw [hdur, hiff]
      constructor
      · rintro ⟨h1, h2⟩
        exact ⟨h1, fun j hj1 hj2 => by rw [← hget j hj2]; exact h2 j hj1 hj2⟩
      · rintro ⟨h1, h2⟩
        exact ⟨h1, fun j hj1 hj2 => by rw [hget j hj2]; exact h2 j hj1 hj2⟩
    rw [handle_step_event_steps, crossings_getD m raws true d0 i hi]
    constructor
    · intro h; rw [if_pos ⟨h.1, hcond.2 h.2⟩]
    · intro h; rw [if_neg (fun hh => h ⟨hh.1, hcond.1 hh.2⟩)]
  · rw [hsteps, hc, holds_ended_replicate]
    simp [holds_ended, bump]
  · rw [hsteps, hc, holds_ended_replicate]
    have : ¬ (m ≤ m - 1) := by omega
    simp [holds_ended, bump, this]
  · rw [hsteps, hc, List.append_assoc, holds_ended_replicate, List.singleton_append,
      holds_ended, holds_ended_replicate]
    simp [holds_ended, bump]

set_option maxRecDepth 100000 in
/-- C2 after start-up with a minimum hold of one sample: a strong sample followed
by an opposite one gives one crossed sample followed by one below sample, and one
step is registered. -/
theorem C2_handle_step_event_debounce_witness :
    crossings 1 [{ x := 4096, y := 4096, z := 4096 }, { x := -4096, y := -4096, z := -4096 }]
      boot = List.replicate 1 true ++ [false] ∧
    (step_events 1 [{ x := 4096, y := 4096, z := 4096 }, { x := -4096, y := -4096, z := -4096 }]
      boot).steps_counted = (boot.steps_counted + 1) % 65536 :=
  ⟨by decide,
   (C2_handle_step_event_debounce 1
      [{ x := 4096, y := 4096, z := 4096 }, { x := -4096, y := -4096, z := -4096 }] boot
      (by decide) (by decide)).2.1 (by decide)⟩

/-! ## Lemmas on the square root and on buffer writes -/

theorem isqrt_bits_spec (k : Nat) : ∀ (n r : Nat), r * r ≤ n → n < (r + 2 ^ k) * (r + 2 ^ k) →
    isqrt_bits k n r = Nat.sqrt n := by
  induction k with
  | zero =>
    intro n r h1 h2
    rw [isqrt_bits]
    exact Nat.eq_sqrt.2 ⟨h1, by simpa using h2⟩
  | succ k ih =>
    intro n r h1 h2
    rw [isqrt_bits]
    split
    · rename_i h
      exact ih n _ h (by rw [Nat.add_assoc, ← Nat.two_mul, ← Nat.pow_succ']; exact h2)
    · rename_i h
      exact ih n r h1 (by omega)

/-- The bit-by-bit square root is the integer square root. -/
theorem isqrt_eq_sqrt (n : Nat) (h : n < 4294967296) : isqrt n = Nat.sqrt n :=
  isqrt_bits_spec 16 n 0 (by simp) (by norm_num; omega)

/-- The argument of the square root is an `int`, hence below 2^31, so `mag_acc` is
the integer square root converted to `int16_t` for every vector. -/
theorem mag_acc_eq_sqrt (v : vector3_t) :
    mag_acc v = toInt16 (Nat.sqrt (sum_of_squares v).toNat) := by
  unfold mag_acc
  rw [isqrt_eq_sqrt]
  unfold sum_of_squares toInt32
  omega

/-- Within the range of the sensor nothing wraps in `mag_acc`: it is the integer
square root of the sum of the squares, at most 7094. -/
theorem mag_acc_in_range (v : vector3_t)
    (hx : -4096 ≤ v.x ∧ v.x ≤ 4096) (hy : -4096 ≤ v.y ∧ v.y ≤ 4096)
    (hz : -4096 ≤ v.z ∧ v.z ≤ 4096) :
    mag_acc v = (Nat.sqrt (v.x * v.x + v.y * v.y + v.z * v.z).toNat : Nat) ∧
    Nat.sqrt (v.x * v.x + v.y * v.y + v.z * v.z).toNat ≤ 7094 := by
  have bx : 0 ≤ v.x * v.x ∧ v.x * v.x ≤ 16777216 := ⟨mul_self_nonneg _, by nlinarith⟩
  have by_ : 0 ≤ v.y * v.y ∧ v.y * v.y ≤ 16777216 := ⟨mul_self_nonneg _, by nlinarith⟩
  have bz : 0 ≤ v.z * v.z ∧ v.z * v.z ≤ 16777216 := ⟨mul_self_nonneg _, by nlinarith⟩
  unfold mag_acc sum_of_squares
  generalize v.x * v.x = X at bx ⊢
  generalize v.y * v.y = Y at by_ ⊢
  generalize v.z * v.z = Z at bz ⊢
  have es : toInt32 (toInt32 (toInt32 Y + toInt32 Z) + toInt32 X) = X + Y + Z := by
    unfold toInt32; omega
  have hn : (X + Y + Z).toNat < 50339025 := by omega
  have hs : Nat.sqrt (X + Y + Z).toNat ≤ 7094 := by
    have : Nat.sqrt (X + Y + Z).toNat < 7095 := Nat.sqrt_lt'.2 (by norm_num; omega)
    omega
  refine ⟨?_, hs⟩
  rw [es, isqrt_eq_sqrt _ (by omega)]
  unfold toInt16
  omega

theorem writeCircBuf_WF (b : circBuf_t) (e : Int) (h : b.WF) : (writeCircBuf b e).WF := by
  obtain ⟨h1, h2, h3, h4⟩ := h
  unfold writeCircBuf circBuf_t.WF
  simp only [List.length_set]
  refine ⟨h1, h2, ?_, h4⟩
  split <;> simp only [BUF_SIZE] at * <;> omega

theorem writeCircBuf_entries (b : circBuf_t) (e lo hi : Int) (he : lo ≤ e ∧ e ≤ hi)
    (h : ∀ a ∈ b.data, lo ≤ a ∧ a ≤ hi) : ∀ a ∈ (writeCircBuf b e).data, lo ≤ a ∧ a ≤ hi := by
  intro a ha
  unfold writeCircBuf at ha
  simp only at ha
  rcases List.mem_or_eq_of_mem_set ha with h1 | h1
  · exact h a h1
  · rw [h1]; exact he

/-- On a well-formed buffer the write cursor advances modulo 12. -/
theorem writeCircBuf_windex (b : circBuf_t) (e : Int) (h : b.WF) :
    (writeCircBuf b e).windex = (b.windex + 1) % 12 := by
  obtain ⟨h1, _, h3, _⟩ := h
  unfold writeCircBuf
  simp only [BUF_SIZE] at *
  split <;> omega

/-- A value within the range of `uint16_t` is not changed by the conversion. -/
theorem toUInt16_of_lt (n : Nat) (h : n < 65536) : toUInt16 (n : Int) = n := by
  unfold toUInt16
  omega

/-- A value within the range of `uint32_t` is not changed by the conversion. -/
theorem toUInt32_of_lt (n : Nat) (h : n < 4294967296) : toUInt32 (n : Int) = n := by
  unfold toUInt32
  omega

/-! ## C3: the baseline of `detect_step` lags the sample -/

/-- C3. For a vector within the range of the sensor and a magnitude buffer that
holds twelve magnitudes (non-negative `int16_t` values), `detect_step` returns true
exactly when the integer square root of `x^2 + y^2 + z^2` exceeds by more than 21
the rounded average `floor((2 * S + 12) / 24)` of the twelve magnitudes the buffer
held before the call; the call then overwrites the slot at the write cursor (the
oldest entry) with that magnitude, advances the cursor modulo 12 and changes
nothing else. -/
theorem C3_detect_step_baseline_lag (acceleration : vector3_t) (d : Device)
    (hx : -4096 ≤ acceleration.x ∧ acceleration.x ≤ 4096)
    (hy : -4096 ≤ acceleration.y ∧ acceleration.y ≤ 4096)
    (hz : -4096 ≤ acceleration.z ∧ acceleration.z ≤ 4096)
    (hwf : d.mag_buffer.WF)
    (hmag : ∀ e ∈ d.mag_buffer.data, 0 ≤ e ∧ e ≤ 32767) :
    ((detect_step acceleration d).1 = true ↔
      ((Nat.sqrt (acceleration.x * acceleration.x + acceleration.y * acceleration.y
          + acceleration.z * acceleration.z).toNat : Nat) : Int)
        - (2 * d.mag_buffer.data.sum + 12) / 24 > 21) ∧
    (detect_step acceleration d).2 =
      { d with
        mag_buffer :=
          { d.mag_buffer with
            data := d.mag_buffer.data.set d.mag_buffer.windex
              ((Nat.sqrt (acceleration.x * acceleration.x + acceleration.y * acceleration.y
                + acceleration.z * acceleration.z).toNat : Nat) : Int)
            windex := (d.mag_buffer.windex + 1) % 12 } } := by
  obtain ⟨hm, hle⟩ := mag_acc_in_range acceleration hx hy hz
  have he16 : Int16Entries d.mag_buffer := fun e he => ⟨by have := hmag e he; omega, (hmag e he).2⟩
  have hS := sum_bounds_of_entries d.mag_buffer.data 0 32767 hmag
  rw [hwf.2.1] at hS
  simp only [BUF_SIZE] at hS
  push_cast at hS
  have havg := acc_average_buffer_round d.mag_buffer hwf he16 (by omega)
  have hw := writeCircBuf_windex d.mag_buffer (mag_acc acceleration) hwf
  constructor
  · unfold detect_step
    simp only [decide_eq_true_eq]
    rw [havg, hm]
    generalize Nat.sqrt (acceleration.x * acceleration.x + acceleration.y * acceleration.y
      + acceleration.z * acceleration.z).toNat = M at hle ⊢
    generalize d.mag_buffer.data.sum = S at hS ⊢
    unfold toInt16
    omega
  · unfold detect_step
    simp only
    rw [← hm, ← hw]
    rfl

/-- C3 applied to the first sample after start-up. -/
theorem C3_detect_step_baseline_lag_witness :
    ((detect_step { x := 300, y := 400, z := 1200 } boot).1 = true ↔
      ((Nat.sqrt ((300 : Int) * 300 + 400 * 400 + 1200 * 1200).toNat : Nat) : Int)
        - (2 * boot.mag_buffer.data.sum + 12) / 24 > 21) ∧
    (detect_step { x := 300, y := 400, z := 1200 } boot).2 =
      { boot with
        mag_buffer :=
          { boot.mag_buffer with
            data := boot.mag_buffer.data.set boot.mag_buffer.windex
              ((Nat.sqrt ((300 : Int) * 300 + 400 * 400 + 1200 * 1200).toNat : Nat) : Int)
            windex := (boot.mag_buffer.windex + 1) % 12 } } :=
  C3_detect_step_baseline_lag { x := 300, y := 400, z := 1200 } boot
    (by decide) (by decide) (by decide) (by decide) (by decide)

/-! ## C4: which vector the magnitude is taken of -/

/-- C4, as stated, fails.  After start-up the sensor delivers the raw sample
(4096, 0, 0), whose magnitude is 4096.  `handle_step_event` hands the smoothed
vector (576, 235, 235) to `detect_step`, so the magnitude written into the
magnitude buffer is 665, and the sample is judged not to cross, although the raw
magnitude exceeds the baseline 768 by far more than 21. -/
theorem C4_raw_magnitude_counterexample :
    mag_acc { x := 4096, y := 0, z := 0 } = 4096 ∧
    (get_accl_data { x := 4096, y := 0, z := 0 } boot).1 = { x := 576, y := 235, z := 235 } ∧
    (handle_step_event { x := 4096, y := 0, z := 0 } 5 boot).mag_buffer
      = writeCircBuf boot.mag_buffer 665 ∧
    (handle_step_event { x := 4096, y := 0, z := 0 } 5 boot).mag_buffer
      ≠ writeCircBuf boot.mag_buffer (mag_acc { x := 4096, y := 0, z := 0 }) ∧
    acc_average_buffer boot.mag_buffer = 768 ∧
    step_detected { x := 4096, y := 0, z := 0 } boot = false := by
  decide

/-- The rounded average of an axis buffer once the raw component `c` has been
written into it, as `get_accl_data` computes it. -/
theorem smoothed_component (b : circBuf_t) (c : Int) (hwf : b.WF)
    (he : ∀ e ∈ b.data, -4096 ≤ e ∧ e ≤ 4096) (hc : -4096 ≤ c ∧ c ≤ 4096) :
    acc_average_buffer (writeCircBuf b c) = Int.tdiv ((b.data.set b.windex c).sum + 6) 12 ∧
    -4096 ≤ acc_average_buffer (writeCircBuf b c) ∧
    acc_average_buffer (writeCircBuf b c) ≤ 4096 := by
  have hwf2 := writeCircBuf_WF b c hwf
  have he2 := writeCircBuf_entries b c (-4096) 4096 hc he
  have he16 : Int16Entries (writeCircBuf b c) := fun e h => by
    have := he2 e h; omega
  have hS := sum_bounds_of_entries (writeCircBuf b c).data (-4096) 4096 he2
  rw [hwf2.2.1] at hS
  simp only [BUF_SIZE] at hS
  push_cast at hS
  have h1 := acc_average_buffer_eq (writeCircBuf b c) hwf2 he16
  have hd : (writeCircBuf b c).data = b.data.set b.windex c := rfl
  rw [hd] at h1 hS
  refine ⟨h1, ?_⟩
  rw [h1]
  generalize (b.data.set b.windex c).sum = S at hS ⊢
  rcases le_or_lt 0 (S + 6) with hp | hn
  · rw [Int.tdiv_eq_ediv hp (by norm_num)]; omega
  · have : Int.tdiv (S + 6) 12 = -(Int.tdiv (-(S + 6)) 12) := by
      rw [Int.neg_tdiv, neg_neg]
    rw [this, Int.tdiv_eq_ediv (by omega) (by norm_num)]; omega

/-- C4, amended.  In `handle_step_event` the magnitude that is compared against
the baseline and written into the magnitude buffer is the integer square root of
`sx^2 + sy^2 + sz^2`, where `sx`, `sy`, `sz` are the smoothed per-axis averages
that `get_accl_data` returns: the rounded averages of the axis buffers after the
raw sample has been written into them.  Stated for raw samples and buffered
values within the range of the sensor. -/
theorem C4_magnitude_of_smoothed_vector (raw : vector3_t) (m : Nat) (d : Device)
    (hx : -4096 ≤ raw.x ∧ raw.x ≤ 4096) (hy : -4096 ≤ raw.y ∧ raw.y ≤ 4096)
    (hz : -4096 ≤ raw.z ∧ raw.z ≤ 4096)
    (hwx : d.x_buffer.WF) (hwy : d.y_buffer.WF) (hwz : d.z_buffer.WF)
    (hex : ∀ e ∈ d.x_buffer.data, -4096 ≤ e ∧ e ≤ 4096)
    (hey : ∀ e ∈ d.y_buffer.data, -4096 ≤ e ∧ e ≤ 4096)
    (hez : ∀ e ∈ d.z_buffer.data, -4096 ≤ e ∧ e ≤ 4096) :
    ∃ sx sy sz : Int,
      sx = Int.tdiv ((d.x_buffer.data.set d.x_buffer.windex raw.x).sum + 6) 12 ∧
      sy = Int.tdiv ((d.y_buffer.data.set d.y_buffer.windex raw.y).sum + 6) 12 ∧
      sz = Int.tdiv ((d.z_buffer.data.set d.z_buffer.windex raw.z).sum + 6) 12 ∧
      (get_accl_data raw d).1 = { x := sx, y := sy, z := sz } ∧
      (handle_step_event raw m d).mag_buffer
        = writeCircBuf d.mag_buffer ((Nat.sqrt (sx * sx + sy * sy + sz * sz).toNat : Nat) : Int) ∧
      (step_detected raw d = true ↔
        toInt16 (((Nat.sqrt (sx * sx + sy * sy + sz * sz).toNat : Nat) : Int)
          - acc_average_buffer d.mag_buffer) > 21) := by
  obtain ⟨ex, bx1, bx2⟩ := smoothed_component d.x_buffer raw.x hwx hex hx
  obtain ⟨ey, by1, by2⟩ := smoothed_component d.y_buffer raw.y hwy hey hy
  obtain ⟨ez, bz1, bz2⟩ := smoothed_component d.z_buffer raw.z hwz hez hz
  have hv : (get_accl_data raw d).1 =
      { x := acc_average_buffer (writeCircBuf d.x_buffer raw.x)
        y := acc_average_buffer (writeCircBuf d.y_buffer raw.y)
        z := acc_average_buffer (writeCircBuf d.z_buffer raw.z) } := rfl
  have hmagbuf : (get_accl_data raw d).2.mag_buffer = d.mag_buffer := rfl
  obtain ⟨hm, _⟩ := mag_acc_in_range (get_accl_data raw d).1
    (by rw [hv]; exact ⟨bx1, bx2⟩) (by rw [hv]; exact ⟨by1, by2⟩) (by rw [hv]; exact ⟨bz1, bz2⟩)
  rw [ex, ey, ez] at hv
  rw [hv] at hm
  simp only at hm
  refine ⟨_, _, _, rfl, rfl, rfl, hv, ?_, ?_⟩
  · rw [handle_step_event_eq]
    have : (register_step_event (step_detected raw d) m
        (detect_step (get_accl_data raw d).1 (get_accl_data raw d).2).2).mag_buffer
        = writeCircBuf (get_accl_data raw d).2.mag_buffer (mag_acc (get_accl_data raw d).1) := by
      unfold register_step_event
      split
      · rfl
      · split <;> rfl
    rw [this, hmagbuf, hv, hm]
  · have : (step_detected raw d = true) ↔ toInt16 (mag_acc (get_accl_data raw d).1
        - acc_average_buffer (get_accl_data raw d).2.mag_buffer) > 21 := by
      unfold step_detected detect_step
      simp only [decide_eq_true_eq]
    rw [this, hmagbuf, hv, hm]

/-- C4, amended, applied to the raw sample (4096, 0, 0) after start-up. -/
theorem C4_magnitude_of_smoothed_vector_witness :
    ∃ sx sy sz : Int,
      sx = Int.tdiv ((boot.x_buffer.data.set boot.x_buffer.windex 4096).sum + 6) 12 ∧
      sy = Int.tdiv ((boot.y_buffer.data.set boot.y_buffer.windex 0).sum + 6) 12 ∧
      sz = Int.tdiv ((boot.z_buffer.data.set boot.z_buffer.windex 0).sum + 6) 12 ∧
      (get_accl_data { x := 4096, y := 0, z := 0 } boot).1 = { x := sx, y := sy, z := sz } ∧
      (handle_step_event { x := 4096, y := 0, z := 0 } 5 boot).mag_buffer
        = writeCircBuf boot.mag_buffer
            ((Nat.sqrt (sx * sx + sy * sy + sz * sz).toNat : Nat) : Int) ∧
      (step_detected { x := 4096, y := 0, z := 0 } boot = true ↔
        toInt16 (((Nat.sqrt (sx * sx + sy * sy + sz * sz).toNat : Nat) : Int)
          - acc_average_buffer boot.mag_buffer) > 21) :=
  C4_magnitude_of_smoothed_vector { x := 4096, y := 0, z := 0 } 5 boot
    (by decide) (by decide) (by decide) (by decide) (by decide) (by decide)
    (by decide) (by decide) (by decide)

/-! ## C5: the goal latch of `check_step_goal` -/

theorem load_state_fields (s : ui_state) (d : Device) :
    (load_state s d).steps_counted = d.steps_counted ∧
    (load_state s d).distance_traveled = d.distance_traveled ∧
    (load_state s d).step_goal = d.step_goal ∧
    (load_state s d).goal_reached_flag = d.goal_reached_flag ∧
    (load_state s d).state = d.state ∧
    (load_state s d).dist_state = d.dist_state ∧
    (load_state s d).step_state = d.step_state ∧
    (load_state s d).test_mode = d.test_mode := by
  unfold load_state Device.emit
  split
  · simp
  · split
    · simp
    · split <;> simp

theorem load_state_notifications (s : ui_state) (d : Device) :
    goal_notifications (load_state s d) = goal_notifications d := by
  unfold load_state Device.emit goal_notifications
  split
  · simp [is_goal_notification]
  · split
    · simp [is_goal_notification]
    · split <;> simp [is_goal_notification]

/-- C5. `check_step_goal` notifies the user once and sets `goal_reached_flag` when
the flag is false and `steps_counted >= step_goal`, and does nothing at all
otherwise; it never changes a counter or the goal; and a second consecutive call
changes nothing, so it never notifies again. -/
theorem C5_check_step_goal_latch (d : Device) :
    ((d.goal_reached_flag = false ∧ d.step_goal ≤ d.steps_counted) →
      goal_notifications (check_step_goal d) = goal_notifications d + 1 ∧
      (check_step_goal d).goal_reached_flag = true) ∧
    (¬ (d.goal_reached_flag = false ∧ d.step_goal ≤ d.steps_counted) →
      check_step_goal d = d) ∧
    ((check_step_goal d).steps_counted = d.steps_counted ∧
      (check_step_goal d).distance_traveled = d.distance_traveled ∧
      (check_step_goal d).step_goal = d.step_goal) ∧
    check_step_goal (check_step_goal d) = check_step_goal d := by
  have hnot : ∀ e : Device, ¬ (e.goal_reached_flag = false ∧ e.step_goal ≤ e.steps_counted) →
      check_step_goal e = e := by
    intro e h
    unfold check_step_goal
    rw [if_neg h]
  have hflag : (d.goal_reached_flag = false ∧ d.step_goal ≤ d.steps_counted) →
      goal_notifications (check_step_goal d) = goal_notifications d + 1 ∧
      (check_step_goal d).goal_reached_flag = true := by
    intro h
    unfold check_step_goal
    rw [if_pos h]
    simp only
    split
    · simp [Device.emit, goal_notifications, is_goal_notification]
    · rw [load_state_notifications, (load_state_fields _ _).2.2.2.1]
      simp [Device.emit, goal_notifications, is_goal_notification]
  have hfields : (check_step_goal d).steps_counted = d.steps_counted ∧
      (check_step_goal d).distance_traveled = d.distance_traveled ∧
      (check_step_goal d).step_goal = d.step_goal := by
    unfold check_step_goal
    split
    · simp only
      split
      · simp [Device.emit]
      · obtain ⟨h1, h2, h3, _⟩ := load_state_fields
          ({ ((d.emit (.display_goal_reached d.steps_counted d.distance_traveled
            d.step_goal)).emit .SysCtlDelay) with goal_reached_flag := true }.emit
            .clear_display).state
          ({ ((d.emit (.display_goal_reached d.steps_counted d.distance_traveled
            d.step_goal)).emit .SysCtlDelay) with goal_reached_flag := true }.emit
            .clear_display)
        exact ⟨h1, h2, h3⟩
    · exact ⟨rfl, rfl, rfl⟩
  refine ⟨hflag, hnot d, hfields, ?_⟩
  by_cases h : d.goal_reached_flag = false ∧ d.step_goal ≤ d.steps_counted
  · apply hnot
    rw [(hflag h).2]
    simp
  · rw [hnot d h, hnot d h]

/-- C5 at the scenario of the goal 1000: no notification at 999 steps, one at 1000
steps, none from the call made right after it. -/
theorem C5_check_step_goal_latch_witness :
    check_step_goal { boot with steps_counted := 999 } = { boot with steps_counted := 999 } ∧
    (goal_notifications (check_step_goal { boot with steps_counted := 1000 })
        = goal_notifications { boot with steps_counted := 1000 } + 1 ∧
      (check_step_goal { boot with steps_counted := 1000 }).goal_reached_flag = true) ∧
    check_step_goal (check_step_goal { boot with steps_counted := 1000 })
      = check_step_goal { boot with steps_counted := 1000 } :=
  ⟨(C5_check_step_goal_latch { boot with steps_counted := 999 }).2.1 (by decide),
   (C5_check_step_goal_latch { boot with steps_counted := 1000 }).1 (by decide),
   (C5_check_step_goal_latch { boot with steps_counted := 1000 }).2.2.2⟩

/-! ## C6: when the goal latch is cleared -/

theorem handle_step_event_flag (raw : vector3_t) (m : Nat) (d : Device) :
    (handle_step_event raw m d).goal_reached_flag = d.goal_reached_flag ∧
    (handle_step_event raw m d).step_goal = d.step_goal := by
  rw [handle_step_event_eq]
  unfold register_step_event
  split
  · exact ⟨rfl, rfl⟩
  · split <;> exact ⟨rfl, rfl⟩

theorem test_increment_flag (d : Device) :
    (test_increment d).goal_reached_flag = d.goal_reached_flag := by
  unfold test_increment
  simp only
  split <;> split <;> rfl

theorem next_ui_state_flag (d : Device) :
    (next_ui_state d).goal_reached_flag = d.goal_reached_flag := by
  unfold next_ui_state
  simp only
  rw [(load_state_fields _ _).2.2.2.1]
  rfl

theorem prev_ui_state_flag (d : Device) :
    (prev_ui_state d).goal_reached_flag = d.goal_reached_flag := by
  unfold prev_ui_state
  simp only
  rw [(load_state_fields _ _).2.2.2.1]
  rfl

theorem change_step_units_flag (d : Device) :
    (change_step_units d).goal_reached_flag = d.goal_reached_flag := by
  unfold change_step_units
  split
  · split <;> rfl
  · split
    · split <;> rfl
    · rfl

theorem toggle_test_mode_flag (d : Device) :
    (toggle_test_mode d).goal_reached_flag = d.goal_reached_flag := by
  unfold toggle_test_mode
  split
  · rfl
  · simp only
    rw [(load_state_fields _ _).2.2.2.1]
    rfl

theorem check_step_goal_flag (d : Device) (h : d.goal_reached_flag = true) :
    (check_step_goal d).goal_reached_flag = true := by
  unfold check_step_goal
  rw [if_neg (by simp [h])]
  exact h

theorem test_decrement_flag (d : Device)
    (h : (test_decrement d).goal_reached_flag ≠ d.goal_reached_flag) :
    (test_decrement d).steps_counted < (test_decrement d).step_goal := by
  unfold test_decrement at h ⊢
  by_cases h1 : (d.steps_counted : Int) - 500 < 0 <;>
    by_cases h2 : (d.distance_traveled : Int) - 450 < 0 <;>
    simp only [h1, h2, if_true, if_false] at h ⊢ <;>
    split at h <;>
    first
      | exact absurd rfl h
      | (rename_i hlt; rw [if_pos hlt]; exact hlt)

/-- C6, as stated, fails.  With 1200 steps counted, the latch set and the
potentiometer at the reading that scales to 1000, `set_goal_potentiometer` clears
the latch although the step count stays at or above the goal.  With the goal at 0
and the latch set, `reset_distance` clears the latch although the step count 0 is
not below the goal 0. -/
theorem C6_latch_cleared_counterexample :
    walked_1200.goal_reached_flag = true ∧
    (UiOp.set_goal_potentiometer.run walked_1200).goal_reached_flag = false ∧
    (UiOp.set_goal_potentiometer.run walked_1200).step_goal = 1000 ∧
    (UiOp.set_goal_potentiometer.run walked_1200).steps_counted = 1200 ∧
    goal_zero_reached.goal_reached_flag = true ∧
    (UiOp.reset_distance.run goal_zero_reached).goal_reached_flag = false ∧
    (UiOp.reset_distance.run goal_zero_reached).steps_counted = 0 ∧
    (UiOp.reset_distance.run goal_zero_reached).step_goal = 0 := by
  decide

/-- C6, amended.  For every operation of the UI module other than
`set_goal_potentiometer` and every state (with a non-zero goal when the operation
is `reset_distance`), if `goal_reached_flag` is true before the operation and false
after it, then `steps_counted < step_goal` holds after it.
`set_goal_potentiometer` clears the latch in every state, whatever the step
count. -/
theorem C6_latch_cleared_only_below_goal (op : UiOp) (d : Device)
    (hop : op ≠ UiOp.set_goal_potentiometer)
    (hreset : op = UiOp.reset_distance → 0 < d.step_goal)
    (hbefore : d.goal_reached_flag = true)
    (hafter : (op.run d).goal_reached_flag = false) :
    (op.run d).steps_counted < (op.run d).step_goal ∧
    (UiOp.set_goal_potentiometer.run d).goal_reached_flag = false := by
  refine ⟨?_, rfl⟩
  cases op with
  | handle_step_event raw m =>
    rw [UiOp.run, (handle_step_event_flag raw m d).1, hbefore] at hafter
    exact absurd hafter (by decide)
  | test_increment =>
    rw [UiOp.run, test_increment_flag, hbefore] at hafter
    exact absurd hafter (by decide)
  | test_decrement =>
    rw [UiOp.run] at hafter ⊢
    exact test_decrement_flag d (by rw [hafter, hbefore]; decide)
  | set_goal_potentiometer => exact absurd rfl hop
  | reset_distance => exact hreset rfl
  | check_step_goal =>
    rw [UiOp.run, check_step_goal_flag d hbefore] at hafter
    exact absurd hafter (by decide)
  | next_ui_state =>
    rw [UiOp.run, next_ui_state_flag, hbefore] at hafter
    exact absurd hafter (by decide)
  | prev_ui_state =>
    rw [UiOp.run, prev_ui_state_flag, hbefore] at hafter
    exact absurd hafter (by decide)
  | change_step_units =>
    rw [UiOp.run, change_step_units_flag, hbefore] at hafter
    exact absurd hafter (by decide)
  | toggle_test_mode =>
    rw [UiOp.run, toggle_test_mode_flag, hbefore] at hafter
    exact absurd hafter (by decide)

/-- C6, amended, at `test_decrement` from 1200 steps with the goal 1000 reached:
the latch is cleared and the 700 steps left are below the goal. -/
theorem C6_latch_cleared_only_below_goal_witness :
    (UiOp.test_decrement.run walked_1200).steps_counted
      < (UiOp.test_decrement.run walked_1200).step_goal ∧
    (UiOp.set_goal_potentiometer.run walked_1200).goal_reached_flag = false :=
  C6_latch_cleared_only_below_goal UiOp.test_decrement walked_1200
    (by decide) (by decide) (by decide) (by decide)

/-! ## C7: the cycle of UI states -/

theorem next_ui_state_state (d : Device) :
    (next_ui_state d).state = Int.tmod (toInt32 (d.state + 1)) 3 := by
  unfold next_ui_state
  simp only
  rw [(load_state_fields _ _).2.2.2.2.1]
  rfl

theorem prev_ui_state_state (d : Device) :
    (prev_ui_state d).state
      = if toInt32 (d.state - 1) ≥ 0 then toInt32 (d.state - 1) else 2 := by
  unfold prev_ui_state
  simp only
  rw [(load_state_fields _ _).2.2.2.2.1]
  rfl

/-- C7, as stated, fails: from `SET_GOAL` the state after `next_ui_state` is
`DISTANCE_TRAVELED`, not `STEPS_COUNTED`, and from `STEPS_COUNTED` the state after
`prev_ui_state` is `DISTANCE_TRAVELED`, not `SET_GOAL`. -/
theorem C7_cycle_order_counterexample :
    (next_ui_state { boot with state := SET_GOAL }).state = DISTANCE_TRAVELED ∧
    (next_ui_state { boot with state := SET_GOAL }).state ≠ STEPS_COUNTED ∧
    (prev_ui_state { boot with state := STEPS_COUNTED }).state = DISTANCE_TRAVELED ∧
    (prev_ui_state { boot with state := STEPS_COUNTED }).state ≠ SET_GOAL := by
  decide

/-- C7, amended.  `next_ui_state` follows the order of the enumerators,
`STEPS_COUNTED -> SET_GOAL -> DISTANCE_TRAVELED -> STEPS_COUNTED`, and
`prev_ui_state` follows that cycle backwards: in particular next from
`DISTANCE_TRAVELED` yields `STEPS_COUNTED`, and prev from `STEPS_COUNTED` yields
`DISTANCE_TRAVELED`. -/
theorem C7_ui_state_cycle (d : Device) :
    (d.state = STEPS_COUNTED → (next_ui_state d).state = SET_GOAL) ∧
    (d.state = SET_GOAL → (next_ui_state d).state = DISTANCE_TRAVELED) ∧
    (d.state = DISTANCE_TRAVELED → (next_ui_state d).state = STEPS_COUNTED) ∧
    (d.state = SET_GOAL → (prev_ui_state d).state = STEPS_COUNTED) ∧
    (d.state = DISTANCE_TRAVELED → (prev_ui_state d).state = SET_GOAL) ∧
    (d.state = STEPS_COUNTED → (prev_ui_state d).state = DISTANCE_TRAVELED) := by
  rw [next_ui_state_state, prev_ui_state_state]
  refine ⟨?_, ?_, ?_, ?_, ?_, ?_⟩ <;> intro h <;> rw [h] <;> decide

/-- C7, amended, after start-up (state `STEPS_COUNTED`): next shows the goal
screen, prev shows the distance screen. -/
theorem C7_ui_state_cycle_witness :
    (next_ui_state boot).state = SET_GOAL ∧ (prev_ui_state boot).state = DISTANCE_TRAVELED :=
  ⟨(C7_ui_state_cycle boot).1 (by decide), (C7_ui_state_cycle boot).2.2.2.2.2 (by decide)⟩

/-! ## C8: the goal percentage divides by the goal -/

/-- The only way `handle_normal_mode_display` fails is the percentage of a zero
goal. -/
theorem handle_normal_mode_display_none (d : Device) :
    handle_normal_mode_display d = none ↔
      (d.state = STEPS_COUNTED ∧ d.step_state = step_units.GOAL_PERCENTAGE ∧ d.step_goal = 0) := by
  unfold handle_normal_mode_display
  constructor
  · intro h
    split at h
    · rename_i hs
      split at h
      · exact absurd h (by simp)
      · rename_i hu
        split at h
        · rename_i hg
          refine ⟨hs, ?_, hg⟩
          cases hst : d.step_state with
          | STEPS => exact absurd hst hu
          | GOAL_PERCENTAGE => rfl
        · exact absurd h (by simp)
    · split at h
      · split at h <;> exact absurd h (by simp)
      · split at h <;> exact absurd h (by simp)
  · rintro ⟨hs, hu, hg⟩
    rw [if_pos hs, if_neg (by rw [hu]; decide), if_pos hg]

/-- C8. A zero goal reaches the division unguarded.  After start-up: the right
button is pushed (set-goal screen), the down button is pushed while the
potentiometer buffer holds zeros (the goal becomes 0, the screen returns to the
step count), the up button is pushed (the step display switches to the goal
percentage).  The next `display_ui` computes `steps_counted * 100 / step_goal`
with `step_goal = 0`. -/
theorem C8_zero_goal_reaches_division :
    (buttons_handler { no_input with up := butState.PUSHED }
      (buttons_handler { no_input with down := butState.PUSHED }
        (buttons_handler { no_input with right := butState.PUSHED } boot))).step_goal = 0 ∧
    (buttons_handler { no_input with up := butState.PUSHED }
      (buttons_handler { no_input with down := butState.PUSHED }
        (buttons_handler { no_input with right := butState.PUSHED } boot))).state
      = STEPS_COUNTED ∧
    (buttons_handler { no_input with up := butState.PUSHED }
      (buttons_handler { no_input with down := butState.PUSHED }
        (buttons_handler { no_input with right := butState.PUSHED } boot))).step_state
      = step_units.GOAL_PERCENTAGE ∧
    display_ui
      (buttons_handler { no_input with up := butState.PUSHED }
        (buttons_handler { no_input with down := butState.PUSHED }
          (buttons_handler { no_input with right := butState.PUSHED } boot))) = none := by
  decide

/-! ## C9: `change_step_units` touches one unit at most -/

/-- C9. `change_step_units` flips the distance unit and keeps the step-display
unit while the UI state is `DISTANCE_TRAVELED`, flips the step-display unit and
keeps the distance unit while it is `STEPS_COUNTED`, changes neither in any other
state (`SET_GOAL` among them), and never changes the UI state, the counters, the
goal or the latch. -/
theorem C9_change_step_units_frame (d : Device) :
    (d.state = DISTANCE_TRAVELED →
      (change_step_units d).dist_state
          = (match d.dist_state with
            | .KMS => distance_units.MILES
            | .MILES => distance_units.KMS) ∧
        (change_step_units d).step_state = d.step_state) ∧
    (d.state = STEPS_COUNTED →
      (change_step_units d).step_state
          = (match d.step_state with
            | .STEPS => step_units.GOAL_PERCENTAGE
            | .GOAL_PERCENTAGE => step_units.STEPS) ∧
        (change_step_units d).dist_state = d.dist_state) ∧
    (d.state ≠ DISTANCE_TRAVELED → d.state ≠ STEPS_COUNTED → change_step_units d = d) ∧
    (d.state = SET_GOAL → change_step_units d = d) ∧
    ((change_step_units d).state = d.state ∧
      (change_step_units d).steps_counted = d.steps_counted ∧
      (change_step_units d).distance_traveled = d.distance_traveled ∧
      (change_step_units d).step_goal = d.step_goal ∧
      (change_step_units d).goal_reached_flag = d.goal_reached_flag) := by
  have hne : ∀ {a b : Int}, d.state = a → a ≠ b → d.state ≠ b := fun h1 h2 => h1 ▸ h2
  refine ⟨fun h => ?_, fun h => ?_, fun h1 h2 => ?_, fun h => ?_, ?_⟩
  · unfold change_step_units
    rw [if_pos h]
    cases d.dist_state <;> exact ⟨rfl, rfl⟩
  · unfold change_step_units
    rw [if_neg (hne h (by decide)), if_pos h]
    cases d.step_state <;> exact ⟨rfl, rfl⟩
  · unfold change_step_units
    rw [if_neg h1, if_neg h2]
  · unfold change_step_units
    rw [if_neg (hne h (by decide)), if_neg (hne h (by decide))]
  · unfold change_step_units
    split
    · split <;> exact ⟨rfl, rfl, rfl, rfl, rfl⟩
    · split
      · split <;> exact ⟨rfl, rfl, rfl, rfl, rfl⟩
      · exact ⟨rfl, rfl, rfl, rfl, rfl⟩

/-- C9 after start-up (state `STEPS_COUNTED`, units `STEPS` and `KMS`): the step
display switches to the goal percentage, the distance unit stays `KMS`; on the
distance screen the distance unit switches to miles and the step display stays. -/
theorem C9_change_step_units_frame_witness :
    ((change_step_units boot).step_state = step_units.GOAL_PERCENTAGE ∧
      (change_step_units boot).dist_state = boot.dist_state) ∧
    ((change_step_units { boot with state := DISTANCE_TRAVELED }).dist_state
        = distance_units.MILES ∧
      (change_step_units { boot with state := DISTANCE_TRAVELED }).step_state
        = step_units.STEPS) ∧
    change_step_units { boot with state := SET_GOAL } = { boot with state := SET_GOAL } :=
  ⟨(C9_change_step_units_frame boot).2.1 (by decide),
   (C9_change_step_units_frame { boot with state := DISTANCE_TRAVELED }).1 (by decide),
   (C9_change_step_units_frame { boot with state := SET_GOAL }).2.2.2.1 (by decide)⟩

/-! ## C10: `ui_task` recomputes the distance -/

/-- For a 16-bit step count, `convert_to_dist` is `floor(steps * 9 / 10)`: neither
the product nor the conversion of the quotient wraps. -/
theorem convert_to_dist_eq (steps : Nat) (h : steps < 65536) :
    convert_to_dist steps = steps * 9 / 10 := by
  unfold convert_to_dist
  have e1 : toInt32 ((steps : Int) * 9) = ((steps * 9 : Nat) : Int) := by
    unfold toInt32; push_cast; omega
  rw [e1, Int.tdiv_eq_ediv (by omega) (by norm_num)]
  unfold toUInt16
  have e2 : ((steps * 9 : Nat) : Int) / 10 = ((steps * 9 / 10 : Nat) : Int) := by
    push_cast; rfl
  rw [e2]
  have e3 : ((steps * 9 / 10 : Nat) : Int) % 65536 = ((steps * 9 / 10 : Nat) : Int) := by
    omega
  rw [e3, Int.toNat_natCast]

/-- C10. For every 16-bit `steps_counted`, `ui_task` sets `distance_traveled` to
`floor(steps_counted * 9 / 10)` while the UI state is `DISTANCE_TRAVELED` and leaves
it unchanged in every other state (`STEPS_COUNTED` and `SET_GOAL` among them); it
never changes `steps_counted`, the goal or the latch. -/
theorem C10_ui_task_distance (d : Device) (h16 : d.steps_counted < 65536) :
    (d.state = DISTANCE_TRAVELED →
      (ui_task d).distance_traveled = d.steps_counted * 9 / 10) ∧
    (d.state ≠ DISTANCE_TRAVELED → (ui_task d).distance_traveled = d.distance_traveled) ∧
    ((ui_task d).steps_counted = d.steps_counted ∧
      (ui_task d).step_goal = d.step_goal ∧
      (ui_task d).goal_reached_flag = d.goal_reached_flag) := by
  refine ⟨fun h => ?_, fun h => ?_, ?_⟩
  · unfold ui_task
    rw [if_neg (by rw [h]; decide), if_pos h]
    simp only
    rw [convert_to_dist_eq _ h16]
  · unfold ui_task
    rw [if_neg h]
    split
    · rfl
    · split <;> rfl
  · unfold ui_task
    split
    · exact ⟨rfl, rfl, rfl⟩
    · split
      · exact ⟨rfl, rfl, rfl⟩
      · split <;> exact ⟨rfl, rfl, rfl⟩

/-- C10 on the distance screen with 65535 steps counted: the distance becomes
58981, and on the other two screens it stays as it was. -/
theorem C10_ui_task_distance_witness :
    (ui_task { boot with state := DISTANCE_TRAVELED, steps_counted := 65535 }).distance_traveled
      = 65535 * 9 / 10 ∧
    (ui_task { boot with state := SET_GOAL, steps_counted := 65535 }).distance_traveled
      = boot.distance_traveled ∧
    (ui_task { boot with steps_counted := 65535 }).distance_traveled
      = boot.distance_traveled :=
  ⟨(C10_ui_task_distance { boot with state := DISTANCE_TRAVELED, steps_counted := 65535 }
      (by decide)).1 (by decide),
   (C10_ui_task_distance { boot with state := SET_GOAL, steps_counted := 65535 }
      (by decide)).2.1 (by decide),
   (C10_ui_task_distance { boot with steps_counted := 65535 } (by decide)).2.1 (by decide)⟩

/-! ## C11: `test_increment` clamps at the ceilings -/

/-- C11. `test_increment` sets `steps_counted` to `min(steps_counted + 100, 10000)`
and `distance_traveled` to `min(distance_traveled + 90, 9000)` and changes nothing
else, for every value of the two counters; from 9950 steps the result is 10000. -/
theorem C11_test_increment_clamp (d : Device) :
    test_increment d =
      { d with
        steps_counted := min (d.steps_counted + 100) 10000
        distance_traveled := min (d.distance_traveled + 90) 9000 } ∧
    (test_increment { boot with steps_counted := 9950 }).steps_counted = 10000 := by
  refine ⟨?_, by decide⟩
  unfold test_increment
  by_cases h1 : (d.steps_counted : Int) + 100 > 10000 <;>
    by_cases h2 : (d.distance_traveled : Int) + 90 > 9000
  · simp only [h1, h2, if_true]
    rw [show min (d.steps_counted + 100) 10000 = 10000 by omega,
      show min (d.distance_traveled + 90) 9000 = 9000 by omega]
  · simp only [h1, h2, if_true, if_false]
    rw [show min (d.steps_counted + 100) 10000 = 10000 by omega,
      show min (d.distance_traveled + 90) 9000 = d.distance_traveled + 90 by omega,
      show (d.distance_traveled : Int) + 90 = ((d.distance_traveled + 90 : Nat) : Int) by
        push_cast; rfl,
      toUInt16_of_lt _ (by omega)]
  · simp only [h1, h2, if_true, if_false]
    rw [show min (d.steps_counted + 100) 10000 = d.steps_counted + 100 by omega,
      show min (d.distance_traveled + 90) 9000 = 9000 by omega,
      show (d.steps_counted : Int) + 100 = ((d.steps_counted + 100 : Nat) : Int) by
        push_cast; rfl,
      toUInt16_of_lt _ (by omega)]
  · simp only [h1, h2, if_false]
    rw [show min (d.steps_counted + 100) 10000 = d.steps_counted + 100 by omega,
      show min (d.distance_traveled + 90) 9000 = d.distance_traveled + 90 by omega,
      show (d.steps_counted : Int) + 100 = ((d.steps_counted + 100 : Nat) : Int) by
        push_cast; rfl,
      show (d.distance_traveled : Int) + 90 = ((d.distance_traveled + 90 : Nat) : Int) by
        push_cast; rfl,
      toUInt16_of_lt _ (by omega), toUInt16_of_lt _ (by omega)]

/-! ## C12: the rates of the main loop -/

set_option maxRecDepth 1000000 in
/-- C12. Input polling and the UI task miss their rates by one tick.  From zeroed
counters after start-up, with one pass of the main loop after every tick, over 300
ticks: `buttons_handler` is dispatched at ticks 25, 50, ..., that is once every 25
ticks, and `ui_task` at ticks 31, 62, ..., once every 31 ticks, because their
tests are `button_tick > 24` and `ui_task_tick > 30`; `display_ui` is dispatched
once every 100 ticks, `check_step_goal` once every 300 ticks and
`handle_step_event` once every 24 ticks, whose tests use `>=`. -/
theorem C12_dispatch_rounds :
    (main_rounds no_input at_rest 300 main_power_on boot).map
      (fun r =>
        (dispatch_rounds Task.buttons_handler r.2.2,
         dispatch_rounds Task.ui_task r.2.2,
         dispatch_rounds Task.display_ui r.2.2,
         dispatch_rounds Task.check_step_goal r.2.2,
         dispatch_rounds Task.handle_step_event r.2.2))
    = some
      ([25, 50, 75, 100, 125, 150, 175, 200, 225, 250, 275, 300],
       [31, 62, 93, 124, 155, 186, 217, 248, 279],
       [100, 200, 300],
       [300],
       [24, 48, 72, 96, 120, 144, 168, 192, 216, 240, 264, 288]) := by
  decide

/-! ## C13: the range of `get_potentiometer_data` -/

theorem readCircBuf_entry_range (b : circBuf_t) (lo hi : Int) (hlo : lo ≤ 0) (hhi : 0 ≤ hi)
    (he : ∀ e ∈ b.data, lo ≤ e ∧ e ≤ hi) :
    lo ≤ (readCircBuf b).1 ∧ (readCircBuf b).1 ≤ hi := by
  unfold readCircBuf
  simp only [List.getD_eq_getElem?_getD]
  rcases lt_or_le b.rindex b.data.length with h | h
  · rw [List.getElem?_eq_getElem h]
    exact he _ (List.getElem_mem h)
  · rw [List.getElem?_eq_none h]
    exact ⟨hlo, hhi⟩

/-- With 12-bit samples in the buffer the `uint32_t` sum of the loop does not
wrap. -/
theorem adc_sum_loop_total (n : Nat) : ∀ (sum : Nat) (b : circBuf_t),
    (∀ e ∈ b.data, 0 ≤ e ∧ e ≤ 4095) → sum + 4095 * n < 4294967296 →
    ((adc_sum_loop n sum b).1 : Int) = sum + read_total n b := by
  induction n with
  | zero => intro sum b _ _; simp [adc_sum_loop, read_total]
  | succ k ih =>
    intro sum b he hlt
    have h1 := readCircBuf_entry_range b 0 4095 (le_refl _) (by norm_num) he
    have e : ((toUInt32 ((sum : Int) + (readCircBuf b).1) : Nat) : Int)
        = sum + (readCircBuf b).1 := by
      unfold toUInt32; omega
    simp only [adc_sum_loop, read_total]
    rw [ih _ _ (by simpa [readCircBuf] using he) (by omega), e]
    ring

/-- Twelve reads bring the read cursor of a well-formed buffer back to where it
stood. -/
theorem adc_sum_loop_buffer (b : circBuf_t) (h : b.WF) (sum : Nat) :
    (adc_sum_loop BUF_SIZE sum b).2 = b := by
  obtain ⟨hs, _, _, hr⟩ := h
  obtain ⟨size, windex, rindex, data⟩ := b
  simp only [BUF_SIZE] at hs hr
  subst hs
  interval_cases rindex <;> simp [adc_sum_loop, readCircBuf, BUF_SIZE]

/-- C13. For twelve buffered ADC samples, each in the 12-bit range 0..4095, with
sum `S`, `get_potentiometer_data` returns `(490 * S + 12) / 2 / 100 / 12 / 100 * 100`
with no intermediate wrap and no truncation of the result: a multiple of 100
between 0 and 10000.  The buffer is left as it was. -/
theorem C13_get_potentiometer_data_range (d : Device) (hwf : d.adc_buffer.WF)
    (he : ∀ e ∈ d.adc_buffer.data, 0 ≤ e ∧ e ≤ 4095) :
    (get_potentiometer_data d).1
      = (490 * d.adc_buffer.data.sum.toNat + 12) / 2 / 100 / 12 / 100 * 100 ∧
    100 ∣ (get_potentiometer_data d).1 ∧
    (get_potentiometer_data d).1 ≤ 10000 ∧
    (get_potentiometer_data d).2 = d := by
  have hS := sum_bounds_of_entries d.adc_buffer.data 0 4095 he
  rw [hwf.2.1] at hS
  simp only [BUF_SIZE] at hS
  push_cast at hS
  have hsum := adc_sum_loop_total BUF_SIZE 0 d.adc_buffer he (by simp [BUF_SIZE])
  rw [read_total_full d.adc_buffer hwf] at hsum
  have hbuf := adc_sum_loop_buffer d.adc_buffer hwf 0
  have hval : (get_potentiometer_data d).1
      = (490 * d.adc_buffer.data.sum.toNat + 12) / 2 / 100 / 12 / 100 * 100 := by
    unfold get_potentiometer_data
    simp only [BUF_SIZE] at hsum ⊢
    generalize (adc_sum_loop 12 0 d.adc_buffer).1 = s at hsum ⊢
    generalize d.adc_buffer.data.sum = S at hS hsum ⊢
    have hs : s = S.toNat := by omega
    subst hs
    have hT : S.toNat ≤ 49140 := by omega
    clear hsum hS
    generalize S.toNat = T at hT ⊢
    have e1 : toUInt32 (245 * 2 * (T : Int)) = 490 * T := by
      rw [show (245 : Int) * 2 * (T : Int) = ((490 * T : Nat) : Int) by push_cast; ring]
      exact toUInt32_of_lt _ (by omega)
    have e2 : toUInt32 (((490 * T : Nat) : Int) + ((12 : Nat) : Int)) = 490 * T + 12 := by
      rw [← Nat.cast_add]
      exact toUInt32_of_lt _ (by omega)
    rw [e1, e2]
    have hQ : (490 * T + 12) / 2 / 100 / 12 ≤ 10032 := by omega
    generalize (490 * T + 12) / 2 / 100 / 12 = Q at hQ ⊢
    have e3 : ((Q : Nat) : Int) / 100 * 100 = ((Q / 100 * 100 : Nat) : Int) := by
      push_cast; rfl
    rw [e3, toUInt32_of_lt _ (by omega), toUInt16_of_lt _ (by omega)]
  refine ⟨hval, ?_, ?_, ?_⟩
  · rw [hval]
    exact Dvd.intro_left _ rfl
  · rw [hval]
    have : 490 * d.adc_buffer.data.sum.toNat + 12 ≤ 24078612 := by omega
    omega
  · unfold get_potentiometer_data
    simp only
    rw [hbuf]

/-- C13 with the potentiometer at its upper end (twelve samples 4095): the goal
offered is 10000. -/
theorem C13_get_potentiometer_data_range_witness :
    (get_potentiometer_data
        { boot with adc_buffer := { boot.adc_buffer with data := List.replicate 12 4095 } }).1
      = (490 * (List.replicate 12 (4095 : Int)).sum.toNat + 12) / 2 / 100 / 12 / 100 * 100 ∧
    100 ∣ (get_potentiometer_data
        { boot with adc_buffer := { boot.adc_buffer with data := List.replicate 12 4095 } }).1 ∧
    (get_potentiometer_data
        { boot with adc_buffer := { boot.adc_buffer with data := List.replicate 12 4095 } }).1
      ≤ 10000 ∧
    (get_potentiometer_data
        { boot with adc_buffer := { boot.adc_buffer with data := List.replicate 12 4095 } }).2
      = { boot with adc_buffer := { boot.adc_buffer with data := List.replicate 12 4095 } } :=
  C13_get_potentiometer_data_range
    { boot with adc_buffer := { boot.adc_buffer with data := List.replicate 12 4095 } }
    (by decide) (by decide)

/-! ## C14: `test_decrement` clamps at zero and re-arms the latch -/

/-- C14. For 16-bit counters `test_decrement` never wraps below zero: it sets
`steps_counted` to `steps_counted - 500` when `steps_counted >= 500` and to 0
otherwise, `distance_traveled` to `distance_traveled - 450` when
`distance_traveled >= 450` and to 0 otherwise, clears `goal_reached_flag` exactly
when the resulting `steps_counted` is below `step_goal`, leaves the flag as it was
otherwise, and changes nothing else. -/
theorem C14_test_decrement_clamp (d : Device)
    (hs : d.steps_counted < 65536) (hd : d.distance_traveled < 65536) :
    test_decrement d =
      { d with
        steps_counted := if d.steps_counted ≥ 500 then d.steps_counted - 500 else 0
        distance_traveled :=
          if d.distance_traveled ≥ 450 then d.distance_traveled - 450 else 0
        goal_reached_flag :=
          if (if d.steps_counted ≥ 500 then d.steps_counted - 500 else 0) < d.step_goal
          then false else d.goal_reached_flag } := by
  have es : ∀ n : Nat, n < 65536 → 500 ≤ n → toUInt16 ((n : Int) - 500) = n - 500 := by
    intro n h1 h2
    unfold toUInt16
    omega
  have ed : ∀ n : Nat, n < 65536 → 450 ≤ n → toUInt16 ((n : Int) - 450) = n - 450 := by
    intro n h1 h2
    unfold toUInt16
    omega
  unfold test_decrement
  by_cases h1 : (d.steps_counted : Int) - 500 < 0 <;>
    by_cases h2 : (d.distance_traveled : Int) - 450 < 0
  · have h1n : ¬ d.steps_counted ≥ 500 := by omega
    have h2n : ¬ d.distance_traveled ≥ 450 := by omega
    simp only [h1, h2, h1n, h2n, if_true, if_false]
    split <;> rfl
  · have h1n : ¬ d.steps_counted ≥ 500 := by omega
    have h2n : d.distance_traveled ≥ 450 := by omega
    simp only [h1, h2, h1n, h2n, if_true, if_false, ed _ hd h2n]
    split <;> rfl
  · have h1n : d.steps_counted ≥ 500 := by omega
    have h2n : ¬ d.distance_traveled ≥ 450 := by omega
    simp only [h1, h2, h1n, h2n, if_true, if_false, es _ hs h1n]
    split <;> rfl
  · have h1n : d.steps_counted ≥ 500 := by omega
    have h2n : d.distance_traveled ≥ 450 := by omega
    simp only [h1, h2, h1n, h2n, if_true, if_false, es _ hs h1n, ed _ hd h2n]
    split <;> rfl

/-- C14 in test mode with 1200 steps and 300 metres counted and the goal 1000
reached: 700 steps and no distance are left, and the latch is cleared. -/
theorem C14_test_decrement_clamp_witness :
    test_decrement { boot with steps_counted := 1200, distance_traveled := 300,
                               goal_reached_flag := true } =
      { boot with steps_counted := 700, distance_traveled := 0, goal_reached_flag := false } :=
  (C14_test_decrement_clamp
    { boot with steps_counted := 1200, distance_traveled := 300, goal_reached_flag := true }
    (by decide) (by decide)).trans (by decide)

/-! ## C15: no step during warm-up at rest -/

theorem sum_set_le (l : List Int) (c : Int) (h : ∀ e ∈ l, c ≤ e) :
    ∀ i : Nat, (l.set i c).sum ≤ l.sum := by
  induction l with
  | nil => intro i; simp
  | cons a t ih =>
    intro i
    cases i with
    | zero =>
      rw [List.set_cons_zero, List.sum_cons, List.sum_cons]
      have := h a (by simp)
      omega
    | succ k =>
      rw [List.set_cons_succ, List.sum_cons, List.sum_cons]
      have := ih (fun e he => h e (by simp [he])) k
      omega

/-- Writing the resting component `c` into an axis buffer whose values lie between
`c` and 256 cannot raise its rounded average. -/
theorem smoothed_monotone (b : circBuf_t) (c : Int) (hwf : b.WF) (hc : 0 ≤ c ∧ c ≤ 256)
    (he : ∀ e ∈ b.data, c ≤ e ∧ e ≤ 256) :
    0 ≤ acc_average_buffer (writeCircBuf b c) ∧
    acc_average_buffer (writeCircBuf b c) ≤ acc_average_buffer b ∧
    acc_average_buffer b ≤ 256 := by
  have hwf2 := writeCircBuf_WF b c hwf
  have he2 := writeCircBuf_entries b c c 256 ⟨le_refl _, hc.2⟩ he
  have h16 : Int16Entries b := fun e h => by have := he e h; omega
  have h16' : Int16Entries (writeCircBuf b c) := fun e h => by have := he2 e h; omega
  have hS := sum_bounds_of_entries b.data c 256 he
  have hS2 := sum_bounds_of_entries (writeCircBuf b c).data c 256 he2
  rw [hwf.2.1] at hS
  rw [hwf2.2.1] at hS2
  simp only [BUF_SIZE] at hS hS2
  push_cast at hS hS2
  have hle : (writeCircBuf b c).data.sum ≤ b.data.sum :=
    sum_set_le b.data c (fun e h => (he e h).1) b.windex
  rw [acc_average_buffer_eq _ hwf2 h16', acc_average_buffer_eq _ hwf h16,
    Int.tdiv_eq_ediv (by omega) (by norm_num), Int.tdiv_eq_ediv (by omega) (by norm_num)]
  omega

/-- The magnitude is monotone in non-negative components within the range of the
sensor. -/
theorem mag_acc_monotone (ux uy uz wx wy wz : Int)
    (hx : 0 ≤ ux ∧ ux ≤ wx ∧ wx ≤ 4096) (hy : 0 ≤ uy ∧ uy ≤ wy ∧ wy ≤ 4096)
    (hz : 0 ≤ uz ∧ uz ≤ wz ∧ wz ≤ 4096) :
    0 ≤ mag_acc { x := ux, y := uy, z := uz } ∧
    mag_acc { x := ux, y := uy, z := uz } ≤ mag_acc { x := wx, y := wy, z := wz } ∧
    mag_acc { x := wx, y := wy, z := wz } ≤ 7094 := by
  obtain ⟨hu, _⟩ := mag_acc_in_range { x := ux, y := uy, z := uz }
    ⟨by show -4096 ≤ ux; omega, by show ux ≤ 4096; omega⟩
    ⟨by show -4096 ≤ uy; omega, by show uy ≤ 4096; omega⟩
    ⟨by show -4096 ≤ uz; omega, by show uz ≤ 4096; omega⟩
  obtain ⟨hw, hwle⟩ := mag_acc_in_range { x := wx, y := wy, z := wz }
    ⟨by show -4096 ≤ wx; omega, by show wx ≤ 4096; omega⟩
    ⟨by show -4096 ≤ wy; omega, by show wy ≤ 4096; omega⟩
    ⟨by show -4096 ≤ wz; omega, by show wz ≤ 4096; omega⟩
  simp only at hu hw hwle
  have hxx : ux * ux ≤ wx * wx := mul_le_mul hx.2.1 hx.2.1 hx.1 (by omega)
  have hyy : uy * uy ≤ wy * wy := mul_le_mul hy.2.1 hy.2.1 hy.1 (by omega)
  have hzz : uz * uz ≤ wz * wz := mul_le_mul hz.2.1 hz.2.1 hz.1 (by omega)
  have hmono := Nat.sqrt_le_sqrt
    (Int.toNat_le_toNat (show ux * ux + uy * uy + uz * uz
      ≤ wx * wx + wy * wy + wz * wz by omega))
  rw [hu, hw]
  omega

theorem handle_step_event_buffers (raw : vector3_t) (m : Nat) (d : Device) :
    (handle_step_event raw m d).x_buffer = writeCircBuf d.x_buffer raw.x ∧
    (handle_step_event raw m d).y_buffer = writeCircBuf d.y_buffer raw.y ∧
    (handle_step_event raw m d).z_buffer = writeCircBuf d.z_buffer raw.z ∧
    (handle_step_event raw m d).mag_buffer
      = writeCircBuf d.mag_buffer
          (mag_acc
            { x := acc_average_buffer (writeCircBuf d.x_buffer raw.x)
              y := acc_average_buffer (writeCircBuf d.y_buffer raw.y)
              z := acc_average_buffer (writeCircBuf d.z_buffer raw.z) }) := by
  rw [handle_step_event_eq]
  unfold register_step_event
  split
  · exact ⟨rfl, rfl, rfl, rfl⟩
  · split <;> exact ⟨rfl, rfl, rfl, rfl⟩

theorem step_detected_iff (raw : vector3_t) (d : Device) :
    step_detected raw d = true ↔
      toInt16 (mag_acc
          { x := acc_average_buffer (writeCircBuf d.x_buffer raw.x)
            y := acc_average_buffer (writeCircBuf d.y_buffer raw.y)
            z := acc_average_buffer (writeCircBuf d.z_buffer raw.z) }
        - acc_average_buffer d.mag_buffer) > 21 := by
  unfold step_detected detect_step get_accl_data
  simp only [decide_eq_true_eq]


/-- At rest the magnitude of the next smoothed vector is not above the magnitude
of the current averages. -/
theorem warm_up_magnitudes (v : vector3_t) (d : Device)
    (hx : 0 ≤ v.x ∧ v.x ≤ 256) (hy : 0 ≤ v.y ∧ v.y ≤ 256) (hz : 0 ≤ v.z ∧ v.z ≤ 256)
    (h : WarmUp v d) :
    0 ≤ mag_acc
      { x := acc_average_buffer (writeCircBuf d.x_buffer v.x)
        y := acc_average_buffer (writeCircBuf d.y_buffer v.y)
        z := acc_average_buffer (writeCircBuf d.z_buffer v.z) } ∧
    mag_acc
      { x := acc_average_buffer (writeCircBuf d.x_buffer v.x)
        y := acc_average_buffer (writeCircBuf d.y_buffer v.y)
        z := acc_average_buffer (writeCircBuf d.z_buffer v.z) } ≤ resting_magnitude d ∧
    resting_magnitude d ≤ 7094 := by
  obtain ⟨⟨wx, wy, wz, wm⟩, ex, ey, ez, em⟩ := h
  obtain ⟨ax0, ax1, ax2⟩ := smoothed_monotone d.x_buffer v.x wx hx ex
  obtain ⟨ay0, ay1, ay2⟩ := smoothed_monotone d.y_buffer v.y wy hy ey
  obtain ⟨az0, az1, az2⟩ := smoothed_monotone d.z_buffer v.z wz hz ez
  unfold resting_magnitude
  exact mag_acc_monotone _ _ _ _ _ _
    ⟨ax0, ax1, le_trans ax2 (by norm_num)⟩ ⟨ay0, ay1, le_trans ay2 (by norm_num)⟩
    ⟨az0, az1, le_trans az2 (by norm_num)⟩

/-- A magnitude that is not above any entry of the magnitude buffer does not
exceed the baseline. -/
theorem warm_up_below_threshold (d : Device) (M : Int) (hM0 : 0 ≤ M) (hM : M ≤ resting_magnitude d)
    (hr : resting_magnitude d ≤ 7094)
    (wm : d.mag_buffer.WF) (em : ∀ e ∈ d.mag_buffer.data, resting_magnitude d ≤ e ∧ e ≤ 32767) :
    ¬ (toInt16 (M - acc_average_buffer d.mag_buffer) > 21) := by
  have h16 : Int16Entries d.mag_buffer := fun e he => by have := em e he; omega
  have hS := sum_bounds_of_entries d.mag_buffer.data (resting_magnitude d) 32767 em
  rw [wm.2.1] at hS
  simp only [BUF_SIZE] at hS
  push_cast at hS
  have hbase := acc_average_buffer_round d.mag_buffer wm h16 (by omega)
  rw [hbase]
  unfold toInt16
  omega

theorem warm_up_not_detected (v : vector3_t) (d : Device)
    (hx : 0 ≤ v.x ∧ v.x ≤ 256) (hy : 0 ≤ v.y ∧ v.y ≤ 256) (hz : 0 ≤ v.z ∧ v.z ≤ 256)
    (h : WarmUp v d) : step_detected v d = false := by
  obtain ⟨m0, m1, m2⟩ := warm_up_magnitudes v d hx hy hz h
  have hno := warm_up_below_threshold d _ m0 m1 m2 h.1.2.2.2 h.2.2.2.2
  rw [← step_detected_iff] at hno
  exact Bool.eq_false_iff.2 hno

theorem warm_up_preserved (v : vector3_t) (m : Nat) (d : Device)
    (hx : 0 ≤ v.x ∧ v.x ≤ 256) (hy : 0 ≤ v.y ∧ v.y ≤ 256) (hz : 0 ≤ v.z ∧ v.z ≤ 256)
    (h : WarmUp v d) : WarmUp v (handle_step_event v m d) := by
  obtain ⟨m0, m1, m2⟩ := warm_up_magnitudes v d hx hy hz h
  obtain ⟨⟨wx, wy, wz, wm⟩, ex, ey, ez, em⟩ := h
  obtain ⟨bx, by_, bz, bm⟩ := handle_step_event_buffers v m d
  have hrest2 : resting_magnitude (handle_step_event v m d) = mag_acc
      { x := acc_average_buffer (writeCircBuf d.x_buffer v.x)
        y := acc_average_buffer (writeCircBuf d.y_buffer v.y)
        z := acc_average_buffer (writeCircBuf d.z_buffer v.z) } := by
    unfold resting_magnitude
    rw [bx, by_, bz]
  unfold WarmUp
  rw [hrest2, bx, by_, bz, bm]
  refine ⟨⟨?_, ?_, ?_, ?_⟩, ?_, ?_, ?_, ?_⟩
  · exact writeCircBuf_WF _ _ wx
  · exact writeCircBuf_WF _ _ wy
  · exact writeCircBuf_WF _ _ wz
  · exact writeCircBuf_WF _ _ wm
  · exact writeCircBuf_entries _ _ _ _ ⟨le_refl _, hx.2⟩ ex
  · exact writeCircBuf_entries _ _ _ _ ⟨le_refl _, hy.2⟩ ey
  · exact writeCircBuf_entries _ _ _ _ ⟨le_refl _, hz.2⟩ ez
  · exact writeCircBuf_entries _ _ _ _ ⟨le_refl _, by omega⟩
      (fun e he => ⟨by have := em e he; omega, (em e he).2⟩)

/-- While the sensor keeps delivering the resting vector, no call detects a step,
the hold counter stays at 0 and the step count does not move. -/
theorem warm_up_run (v : vector3_t) (m : Nat) (hm : 0 < m)
    (hx : 0 ≤ v.x ∧ v.x ≤ 256) (hy : 0 ≤ v.y ∧ v.y ≤ 256) (hz : 0 ≤ v.z ∧ v.z ≤ 256)
    (n : Nat) : ∀ d : Device, WarmUp v d → d.above_threshold_duration = 0 →
      crossings m (List.replicate n v) d = List.replicate n false ∧
      (step_events m (List.replicate n v) d).steps_counted = d.steps_counted := by
  induction n with
  | zero =>
    intro d _ _
    rw [List.replicate_zero, step_events_nil]
    exact ⟨rfl, rfl⟩
  | succ k ih =>
    intro d hw h0
    have hc := warm_up_not_detected v d hx hy hz hw
    have hdur := handle_step_event_duration v m d
    have hst := handle_step_event_steps v m d
    rw [hc] at hdur hst
    rw [if_neg (by decide)] at hdur
    rw [if_neg (by rw [h0]; omega)] at hst
    obtain ⟨ih1, ih2⟩ := ih (handle_step_event v m d) (warm_up_preserved v m d hx hy hz hw) hdur
    rw [List.replicate_succ, crossings_cons, step_events_cons, hc, ih1, ih2, hst,
      List.replicate_succ]
    exact ⟨rfl, rfl⟩

/-- The buffers as `initAccl` leaves them are in the warm-up state for every
resting vector. -/
theorem warm_up_initial (v : vector3_t) (d : Device)
    (hx : 0 ≤ v.x ∧ v.x ≤ 256) (hy : 0 ≤ v.y ∧ v.y ≤ 256) (hz : 0 ≤ v.z ∧ v.z ≤ 256)
    (hbx : d.x_buffer.WF ∧ d.x_buffer.data = List.replicate 12 256)
    (hby : d.y_buffer.WF ∧ d.y_buffer.data = List.replicate 12 256)
    (hbz : d.z_buffer.WF ∧ d.z_buffer.data = List.replicate 12 256)
    (hbm : d.mag_buffer.WF ∧ d.mag_buffer.data = List.replicate 12 768) :
    WarmUp v d := by
  have havg : ∀ b : circBuf_t, b.WF → b.data = List.replicate 12 256 →
      acc_average_buffer b = 256 := by
    intro b hwf hdata
    rw [acc_average_buffer_eq b hwf (by
      intro e he
      rw [hdata] at he
      rw [List.eq_of_mem_replicate he]
      decide), hdata]
    decide
  have hrest : resting_magnitude d = 443 := by
    unfold resting_magnitude
    rw [havg _ hbx.1 hbx.2, havg _ hby.1 hby.2, havg _ hbz.1 hbz.2]
    decide
  refine ⟨⟨hbx.1, hby.1, hbz.1, hbm.1⟩, ?_, ?_, ?_, ?_⟩
  · intro e he
    rw [hbx.2] at he
    rw [List.eq_of_mem_replicate he]
    exact ⟨hx.2, le_refl _⟩
  · intro e he
    rw [hby.2] at he
    rw [List.eq_of_mem_replicate he]
    exact ⟨hy.2, le_refl _⟩
  · intro e he
    rw [hbz.2] at he
    rw [List.eq_of_mem_replicate he]
    exact ⟨hz.2, le_refl _⟩
  · intro e he
    rw [hbm.2] at he
    rw [List.eq_of_mem_replicate he, hrest]
    decide

/-- What `initAccl` leaves in the four buffers, whatever they held before. -/
theorem initAccl_prefill (d : Device) :
    (initAccl d).x_buffer = { size := 12, windex := 0, rindex := 0, data := List.replicate 12 256 } ∧
    (initAccl d).y_buffer = { size := 12, windex := 0, rindex := 0, data := List.replicate 12 256 } ∧
    (initAccl d).z_buffer = { size := 12, windex := 0, rindex := 0, data := List.replicate 12 256 } ∧
    (initAccl d).mag_buffer
      = { size := 12, windex := 0, rindex := 0, data := List.replicate 12 768 } := by
  simp [initAccl, initAccl_fill, writeCircBuf, initCircBuf, BUF_SIZE]

/-- C15. Warm-up at rest.  Start with the buffers as `initAccl` pre-fills them (each
axis buffer 12 x 256, the magnitude buffer 12 x 768) and the hold counter at 0, and
let every sample delivered by the sensor be the same vector with each component in
0..256.  Then, for every number `n` of step-sampling calls with a minimum hold of
at least one sample (`main` passes 5), `detect_step` returns false in every call
and `steps_counted` is never changed. -/
theorem C15_warm_up_at_rest (v : vector3_t) (m n : Nat) (d0 : Device)
    (hx : 0 ≤ v.x ∧ v.x ≤ 256) (hy : 0 ≤ v.y ∧ v.y ≤ 256) (hz : 0 ≤ v.z ∧ v.z ≤ 256)
    (hm : 0 < m)
    (hbx : d0.x_buffer.WF ∧ d0.x_buffer.data = List.replicate 12 256)
    (hby : d0.y_buffer.WF ∧ d0.y_buffer.data = List.replicate 12 256)
    (hbz : d0.z_buffer.WF ∧ d0.z_buffer.data = List.replicate 12 256)
    (hbm : d0.mag_buffer.WF ∧ d0.mag_buffer.data = List.replicate 12 768)
    (h0 : d0.above_threshold_duration = 0) :
    crossings m (List.replicate n v) d0 = List.replicate n false ∧
    (∀ k, k ≤ n →
      (step_events m (List.replicate k v) d0).steps_counted = d0.steps_counted) := by
  have hw := warm_up_initial v d0 hx hy hz hbx hby hbz hbm
  exact ⟨(warm_up_run v m hm hx hy hz n d0 hw h0).1,
    fun k _ => (warm_up_run v m hm hx hy hz k d0 hw h0).2⟩

/-- C15 after start-up, for a device lying flat (gravity along the z axis) and 100
calls of `handle_step_event(5)`. -/
theorem C15_warm_up_at_rest_witness :
    crossings 5 (List.replicate 100 at_rest) boot = List.replicate 100 false ∧
    (∀ k, k ≤ 100 →
      (step_events 5 (List.replicate k at_rest) boot).steps_counted = boot.steps_counted) :=
  C15_warm_up_at_rest at_rest 5 100 boot (by decide) (by decide) (by decide) (by decide)
    (by decide) (by decide) (by decide) (by decide) (by decide)

/-! ## C16: `prev_ui_state` undoes `next_ui_state` -/

/-- C16. On each of the three UI states, `next_ui_state` followed by `prev_ui_state`
and `prev_ui_state` followed by `next_ui_state` both restore the state, and the
state after either operation is one of the three enumerators; the backward step
from `STEPS_COUNTED` (enumerator 0) lands on `DISTANCE_TRAVELED` (enumerator 2). -/
theorem C16_prev_inverse_of_next (d : Device)
    (h : d.state = STEPS_COUNTED ∨ d.state = SET_GOAL ∨ d.state = DISTANCE_TRAVELED) :
    (prev_ui_state (next_ui_state d)).state = d.state ∧
    (next_ui_state (prev_ui_state d)).state = d.state ∧
    ((next_ui_state d).state = STEPS_COUNTED ∨ (next_ui_state d).state = SET_GOAL ∨
      (next_ui_state d).state = DISTANCE_TRAVELED) ∧
    ((prev_ui_state d).state = STEPS_COUNTED ∨ (prev_ui_state d).state = SET_GOAL ∨
      (prev_ui_state d).state = DISTANCE_TRAVELED) ∧
    (d.state = STEPS_COUNTED → (prev_ui_state d).state = DISTANCE_TRAVELED) := by
  rw [prev_ui_state_state (next_ui_state d), next_ui_state_state (prev_ui_state d),
    next_ui_state_state d, prev_ui_state_state d]
  rcases h with h | h | h <;> rw [h] <;> decide

/-- C16 after start-up: from the step screen, back and forth in either order
returns to the step screen, and the backward step shows the distance screen. -/
theorem C16_prev_inverse_of_next_witness :
    (prev_ui_state (next_ui_state boot)).state = boot.state ∧
    (next_ui_state (prev_ui_state boot)).state = boot.state ∧
    ((next_ui_state boot).state = STEPS_COUNTED ∨ (next_ui_state boot).state = SET_GOAL ∨
      (next_ui_state boot).state = DISTANCE_TRAVELED) ∧
    ((prev_ui_state boot).state = STEPS_COUNTED ∨ (prev_ui_state boot).state = SET_GOAL ∨
      (prev_ui_state boot).state = DISTANCE_TRAVELED) ∧
    (boot.state = STEPS_COUNTED → (prev_ui_state boot).state = DISTANCE_TRAVELED) :=
  C16_prev_inverse_of_next boot (by decide)

end FitnessMonitor
